import Mathlib

/-!
Verification development for the half-edge / face planar-subdivision kernel
(`cairo_utils.dcel`).  The Python entities `Vertex`, `HalfEdge` and `Face`
are shallowly embedded as records addressed by stable natural-number
indices inside an explicit kernel state `DState`; mutating operations are
translated from `src/cairo_utils/dcel/HalfEdge.py` and
`src/cairo_utils/dcel/Face.py` as state-passing functions returning
`Except String` results (a raised Python exception becomes an `.error`
result, with the state at the moment of the raise).  Numpy float
coordinates are embedded as exact rationals.  Collaborators whose source
is not part of the kernel sources (`Vertex.py`, `Line.py`, `DCEL.py`,
`math.py`) are modelled from the specification and marked as such in
their doc comments.
-/

set_option maxRecDepth 100000

namespace CU

/-- A 2D point, embedding a numpy length-2 float array as exact rationals. -/
abbrev Pt := ℚ × ℚ

def pAdd (a b : Pt) : Pt := (a.1 + b.1, a.2 + b.2)

def pSub (a b : Pt) : Pt := (a.1 - b.1, a.2 - b.2)

def pScale (k : ℚ) (a : Pt) : Pt := (k * a.1, k * a.2)

/-- z-component of the 2D cross product, `np.cross` on length-2 arrays. -/
def crossZ (a b : Pt) : ℚ := a.1 * b.2 - a.2 * b.1

def dotP (a b : Pt) : ℚ := a.1 * b.1 + a.2 * b.2

/-- Modelled from the spec: `get_distance_raw` from the missing geometry
library collaborator (`math.py`), the squared euclidean distance. -/
def dist2 (a b : Pt) : ℚ := (a.1 - b.1) ^ 2 + (a.2 - b.2) ^ 2

/-- An axis-aligned bounding box `[min_x, min_y, max_x, max_y]`. -/
structure BBox where
  minx : ℚ
  miny : ℚ
  maxx : ℚ
  maxy : ℚ
  deriving DecidableEq

/-- The `EditE` result tag of the copy-on-write protocol
(`dcel/constants.py`). -/
inductive EditE where
  | NEW : EditE
  | MODIFIED : EditE
  deriving DecidableEq

/-- Labels for the four sides of a bbox (`IntersectEnum`). -/
inductive BSide where
  | VLEFT : BSide
  | VRIGHT : BSide
  | HTOP : BSide
  | HBOTTOM : BSide
  deriving DecidableEq

/-- A heterogeneous entity reference, standing for a member of a Python
candidate set that may mix faces, half-edges and vertices. -/
inductive Ent where
  | e : Nat → Ent
  | f : Nat → Ent
  | v : Nat → Ent
  deriving DecidableEq

/-- Embedded `Vertex` (collaborator, `Vertex.py` not under `src/`): a
location and the registration set of incident half-edges.  The opaque
metadata map is not modelled. -/
structure Vtx where
  loc : Pt
  halfEdges : List Nat
  deriving DecidableEq

/-- Embedded `HalfEdge` record (`HalfEdge.py` lines 31-68): origin, twin,
next/prev links, owning face, cached squared length (`none` embeds the
source's `-1` sentinel for "not cached"), constrained and cleanup flags. -/
structure HRec where
  origin : Option Nat
  twin : Option Nat
  nxt : Option Nat
  prv : Option Nat
  face : Option Nat
  lengthSq : Option ℚ
  constrained : Bool
  markedForCleanup : Bool
  deriving DecidableEq

/-- Embedded `Face` record (`Face.py` lines 29-61): optional site, ordered
boundary list, cached hull coordinate list, cleanup flag. -/
structure FRec where
  site : Option Pt
  edgeList : List Nat
  coordList : Option (List Pt)
  markedForCleanup : Bool
  deriving DecidableEq

/-- The kernel state: index-addressed collections of live entities plus
the per-type monotonic index counters. -/
structure DState where
  verts : List (Nat × Vtx)
  hedges : List (Nat × HRec)
  faces : List (Nat × FRec)
  nextVIdx : Nat
  nextEIdx : Nat
  nextFIdx : Nat
  deriving DecidableEq

/-- First-match association lookup. -/
def alook {α : Type} : List (Nat × α) → Nat → Option α
  | [], _ => none
  | p :: l, i => if p.1 = i then some p.2 else alook l i

/-- Update every entry of key `k` in place (keys are unique in practice). -/
def aupd {α : Type} (l : List (Nat × α)) (k : Nat) (g : α → α) : List (Nat × α) :=
  l.map (fun p => if p.1 = k then (p.1, g p.2) else p)

theorem alook_aupd {α : Type} (l : List (Nat × α)) (k i : Nat) (g : α → α) :
    alook (aupd l k g) i =
      if i = k then (alook l i).map g else alook l i := by
  induction l with
  | nil => simp [alook, aupd]
  | cons p l ih =>
    simp only [aupd, List.map_cons] at ih ⊢
    by_cases hpk : p.1 = k
    · by_cases hik : i = k
      · simp [alook, hpk, hik]
      · have h1 : ¬ p.1 = i := by omega
        have h2 : ¬ k = i := by omega
        simp [alook, hpk, h1, h2, hik, ih]
    · by_cases hpi : p.1 = i
      · have hik : ¬ i = k := by omega
        simp [alook, hpk, hpi, hik]
      · simp [alook, hpk, hpi, ih]

theorem alook_append {α : Type} (l m : List (Nat × α)) (i : Nat) :
    alook (l ++ m) i =
      match alook l i with
      | some w => some w
      | none => alook m i := by
  induction l with
  | nil => simp [alook]
  | cons p l ih =>
    by_cases hpi : p.1 = i
    · simp [alook, hpi]
    · simp [alook, hpi, ih]

/-- Keys all below a bound look up to `none` at the bound. -/
theorem alook_of_bounded {α : Type} (l : List (Nat × α)) (n i : Nat)
    (hb : l.all (fun p => p.1 < n) = true) (hi : n ≤ i) :
    alook l i = none := by
  induction l with
  | nil => rfl
  | cons p l ih =>
    simp only [List.all_cons, Bool.and_eq_true, decide_eq_true_eq] at hb
    have : ¬ p.1 = i := by omega
    simp [alook, this, ih hb.2]

/-! ### State accessors and updaters -/

def getV (st : DState) (i : Nat) : Option Vtx := alook st.verts i

def getE (st : DState) (i : Nat) : Option HRec := alook st.hedges i

def getF (st : DState) (i : Nat) : Option FRec := alook st.faces i

def updV (st : DState) (i : Nat) (g : Vtx → Vtx) : DState :=
  { st with verts := aupd st.verts i g }

def updE (st : DState) (i : Nat) (g : HRec → HRec) : DState :=
  { st with hedges := aupd st.hedges i g }

def updF (st : DState) (i : Nat) (g : FRec → FRec) : DState :=
  { st with faces := aupd st.faces i g }

/-- Append a fresh vertex at the next index (entity-factory registration). -/
def insV (st : DState) (v : Vtx) : Nat × DState :=
  (st.nextVIdx,
   { st with verts := st.verts ++ [(st.nextVIdx, v)], nextVIdx := st.nextVIdx + 1 })

def insE (st : DState) (h : HRec) : Nat × DState :=
  (st.nextEIdx,
   { st with hedges := st.hedges ++ [(st.nextEIdx, h)], nextEIdx := st.nextEIdx + 1 })

def insF (st : DState) (f : FRec) : Nat × DState :=
  (st.nextFIdx,
   { st with faces := st.faces ++ [(st.nextFIdx, f)], nextFIdx := st.nextFIdx + 1 })

/-- All live indices lie strictly below the monotonic counters (the factory
invariant: indices are unique and never reused). -/
def boundedB (st : DState) : Bool :=
  st.verts.all (fun p => p.1 < st.nextVIdx) &&
  st.hedges.all (fun p => p.1 < st.nextEIdx) &&
  st.faces.all (fun p => p.1 < st.nextFIdx)

/-! ### Lookup / update simp lemmas -/

theorem getV_updV (st : DState) (k i : Nat) (g : Vtx → Vtx) :
    getV (updV st k g) i = if i = k then (getV st i).map g else getV st i := by
  simp [getV, updV, alook_aupd]

theorem getE_updE (st : DState) (k i : Nat) (g : HRec → HRec) :
    getE (updE st k g) i = if i = k then (getE st i).map g else getE st i := by
  simp [getE, updE, alook_aupd]

theorem getF_updF (st : DState) (k i : Nat) (g : FRec → FRec) :
    getF (updF st k g) i = if i = k then (getF st i).map g else getF st i := by
  simp [getF, updF, alook_aupd]

theorem getV_updE (st : DState) (k i : Nat) (g : HRec → HRec) :
    getV (updE st k g) i = getV st i := rfl

theorem getV_updF (st : DState) (k i : Nat) (g : FRec → FRec) :
    getV (updF st k g) i = getV st i := rfl

theorem getE_updV (st : DState) (k i : Nat) (g : Vtx → Vtx) :
    getE (updV st k g) i = getE st i := rfl

theorem getE_updF (st : DState) (k i : Nat) (g : FRec → FRec) :
    getE (updF st k g) i = getE st i := rfl

theorem getF_updV (st : DState) (k i : Nat) (g : Vtx → Vtx) :
    getF (updV st k g) i = getF st i := rfl

theorem getF_updE (st : DState) (k i : Nat) (g : HRec → HRec) :
    getF (updE st k g) i = getF st i := rfl

theorem verts_updE (st : DState) (k : Nat) (g : HRec → HRec) :
    (updE st k g).verts = st.verts := rfl

theorem verts_updF (st : DState) (k : Nat) (g : FRec → FRec) :
    (updF st k g).verts = st.verts := rfl

theorem getV_insV (st : DState) (v : Vtx) (i : Nat) :
    getV (insV st v).2 i =
      match getV st i with
      | some w => some w
      | none => if st.nextVIdx = i then some v else none := by
  unfold getV insV
  rw [alook_append]
  cases h : alook st.verts i <;> simp [h, alook]

theorem getE_insE (st : DState) (h : HRec) (i : Nat) :
    getE (insE st h).2 i =
      match getE st i with
      | some w => some w
      | none => if st.nextEIdx = i then some h else none := by
  unfold getE insE
  rw [alook_append]
  cases h : alook st.hedges i <;> simp [h, alook]

theorem getF_insF (st : DState) (f : FRec) (i : Nat) :
    getF (insF st f).2 i =
      match getF st i with
      | some w => some w
      | none => if st.nextFIdx = i then some f else none := by
  unfold getF insF
  rw [alook_append]
  cases h : alook st.faces i <;> simp [h, alook]

theorem getE_insV (st : DState) (v : Vtx) (i : Nat) :
    getE (insV st v).2 i = getE st i := rfl

theorem getF_insV (st : DState) (v : Vtx) (i : Nat) :
    getF (insV st v).2 i = getF st i := rfl

theorem getV_insE (st : DState) (h : HRec) (i : Nat) :
    getV (insE st h).2 i = getV st i := rfl

theorem getF_insE (st : DState) (h : HRec) (i : Nat) :
    getF (insE st h).2 i = getF st i := rfl

theorem getV_insF (st : DState) (f : FRec) (i : Nat) :
    getV (insF st f).2 i = getV st i := rfl

theorem getE_insF (st : DState) (f : FRec) (i : Nat) :
    getE (insF st f).2 i = getE st i := rfl

/-! ### Geometry collaborator (the missing `math.py` / `Line.py`) -/

/-- Modelled from the spec: point-in-rectangle test (`within_bbox`),
closed bounds. -/
def ptWithin (p : Pt) (b : BBox) : Bool :=
  decide (b.minx ≤ p.1) && decide (p.1 ≤ b.maxx) &&
  decide (b.miny ≤ p.2) && decide (p.2 ≤ b.maxy)

/-- Modelled from the spec: `inCircle` classifies points against a circle,
boundary counting as inside (distance squared at most radius squared). -/
def inCircleB (c : Pt) (r : ℚ) (p : Pt) : Bool :=
  decide (dist2 c p ≤ r ^ 2)

/-- Modelled from the spec: exact segment-segment intersection
(`math.intersect`).  Solves `p1 + t dp = q1 + u dq`; parallel segments
yield no intersection, parameters are accepted on the closed unit
interval. -/
def segIntersect (p : Pt × Pt) (q : Pt × Pt) : Option Pt :=
  let dp := pSub p.2 p.1
  let dq := pSub q.2 q.1
  let denom := crossZ dp dq
  if denom = 0 then none
  else
    let w := pSub q.1 p.1
    let t := crossZ w dq / denom
    let u := crossZ w dp / denom
    if 0 ≤ t ∧ t ≤ 1 ∧ 0 ≤ u ∧ u ≤ 1 then
      some (pAdd p.1 (pScale t dp))
    else none

/-- Modelled from the spec: `bbox_to_lines` decomposes a rectangle into
its four sides, each labelled with the `IntersectEnum` side tag. -/
def bboxToLines (b : BBox) : List ((Pt × Pt) × BSide) :=
  [(((b.minx, b.miny), (b.minx, b.maxy)), BSide.VLEFT),
   (((b.maxx, b.miny), (b.maxx, b.maxy)), BSide.VRIGHT),
   (((b.minx, b.miny), (b.maxx, b.miny)), BSide.HBOTTOM),
   (((b.minx, b.maxy), (b.maxx, b.maxy)), BSide.HTOP)]

/-- Exact rational square root: `some s` with `s * s = q` when one
exists, else `none`. -/
def ratSqrt (q : ℚ) : Option ℚ :=
  if q < 0 then none
  else
    let sn := Nat.sqrt q.num.toNat
    let sd := Nat.sqrt q.den
    if sn * sn = q.num.toNat ∧ sd * sd = q.den then
      some ((sn : ℚ) / (sd : ℚ))
    else none

/-- Modelled from the spec: the line-circle intersection used by
`Line.intersect_with_circle`.  The line through `p1` and `p2` is
parametrized as `p1 + t (p2 - p1)`; the quadratic is solved exactly,
returning the intersection points in increasing parameter order (empty
when there is no rational solution). -/
def lineCircleIntersect (p1 p2 c : Pt) (r : ℚ) : List Pt :=
  let d := pSub p2 p1
  let f := pSub p1 c
  let a := dotP d d
  let b := 2 * dotP f d
  let k := dotP f f - r ^ 2
  if a = 0 then []
  else
    let disc := b ^ 2 - 4 * a * k
    match ratSqrt disc with
    | none => []
    | some s =>
      if disc = 0 then [pAdd p1 (pScale (-b / (2 * a)) d)]
      else
        [pAdd p1 (pScale ((-b - s) / (2 * a)) d),
         pAdd p1 (pScale ((-b + s) / (2 * a)) d)]

/-- `np.argmin`: index of the first minimal element. -/
def argminIdx (l : List ℚ) : Nat :=
  (l.enum.foldl
    (fun best p => if p.2 < best.1 then (p.2, p.1) else best)
    (l.headD 0, 0)).2

/-- Modelled from the spec: `sampleAlongLine` at ratio `r` along the
segment from `a` to `b`. -/
def sampleAt (a b : Pt) (r : ℚ) : Pt := pAdd a (pScale r (pSub b a))

/-- The angular order used by `HalfEdge.compareEdges` (`HalfEdge.py`
lines 581-595): `deg_a <= deg_b` for degrees normalized into `[0, 360)`,
computed exactly by quadrant class plus a cross-product comparison. -/
def angClass (u : Pt) : Nat :=
  if u.2 = 0 ∧ 0 ≤ u.1 then 0
  else if 0 < u.2 then 1
  else if u.2 = 0 then 2
  else 3

def angLE (u v : Pt) : Bool :=
  let cu := angClass u
  let cv := angClass v
  if cu < cv then true
  else if cv < cu then false
  else if cu = 0 ∨ cu = 2 then true
  else decide (0 ≤ crossZ u v)

/-- Insertion sort by a strict-less test, the model for Python
`list.sort` under a tie-free comparator. -/
def insertBy {α : Type} (lt : α → α → Bool) (x : α) : List α → List α
  | [] => [x]
  | y :: ys => if lt x y then x :: y :: ys else y :: insertBy lt x ys

def sortBy {α : Type} (lt : α → α → Bool) : List α → List α
  | [] => []
  | x :: xs => insertBy lt x (sortBy lt xs)

/-! ### Result-with-state plumbing

A Python method that may raise becomes `DState → Except String α × DState`:
the final state is returned even on error, since a raised exception leaves
all mutations made before the raise in place. -/

abbrev Res (α : Type) := Except String α × DState

def estBind {α β : Type} (x : Res α) (f : α → DState → Res β) : Res β :=
  match x with
  | (Except.ok a, st) => f a st
  | (Except.error e, st) => (Except.error e, st)

theorem estBind_ok {α β : Type} (a : α) (st : DState) (f : α → DState → Res β) :
    estBind (Except.ok a, st) f = f a st := rfl

theorem estBind_err {α β : Type} (e : String) (st : DState) (f : α → DState → Res β) :
    estBind (Except.error e, st) f = (Except.error e, st) := rfl

/-- Python attribute access on `None` (`AttributeError`) for an optional
reference that must be present. -/
def unopt {α : Type} (o : Option α) (st : DState) : Res α :=
  match o with
  | some a => (Except.ok a, st)
  | none => (Except.error "AttributeError: NoneType", st)

def getVx (i : Nat) (st : DState) : Res Vtx :=
  match getV st i with
  | some v => (Except.ok v, st)
  | none => (Except.error "KeyError: vertex", st)

def getEd (i : Nat) (st : DState) : Res HRec :=
  match getE st i with
  | some h => (Except.ok h, st)
  | none => (Except.error "KeyError: halfedge", st)

def getFc (i : Nat) (st : DState) : Res FRec :=
  match getF st i with
  | some f => (Except.ok f, st)
  | none => (Except.error "KeyError: face", st)

/-! ### Vertex collaborator operations (`Vertex.py` is not under `src/`) -/

/-- Adding a half-edge to an incidence set (set semantics). -/
def regF (e : Nat) (w : Vtx) : Vtx :=
  if e ∈ w.halfEdges then w else { w with halfEdges := w.halfEdges ++ [e] }

/-- Discarding a half-edge from an incidence set. -/
def unregF (e : Nat) (w : Vtx) : Vtx :=
  { w with halfEdges := w.halfEdges.erase e }

theorem loc_regF (e : Nat) (w : Vtx) : (regF e w).loc = w.loc := by
  unfold regF; split <;> rfl

theorem loc_unregF (e : Nat) (w : Vtx) : (unregF e w).loc = w.loc := rfl

/-- Modelled from the spec: `Vertex.registerHalfEdge` adds the half-edge
to the vertex's incidence set (set semantics: no duplicate entries). -/
def registerHE (v e : Nat) (st : DState) : Res Unit :=
  match getV st v with
  | none => (Except.error "KeyError: vertex", st)
  | some _ => (Except.ok (), updV st v (regF e))

/-- Modelled from the spec: `Vertex.unregisterHalfEdge` discards the
half-edge from the incidence set (no error when absent). -/
def unregisterHE (v e : Nat) (st : DState) : Res Unit :=
  match getV st v with
  | none => (Except.error "KeyError: vertex", st)
  | some _ => (Except.ok (), updV st v (unregF e))

/-- Modelled from the spec: `Vertex.translate(loc, abs=True, force=True)`
moves the vertex to the absolute target and reports `MODIFIED`. -/
def vtxTranslate (v : Nat) (target : Pt) (st : DState) : Res EditE :=
  match getV st v with
  | none => (Except.error "KeyError: vertex", st)
  | some _ => (Except.ok EditE.MODIFIED, updV st v (fun w => { w with loc := target }))

/-- Modelled from the spec: `Vertex.has_constraints(candidates)` is true
iff some half-edge registered at the vertex is outside the candidate
set. -/
def vtxHasConstraints (st : DState) (v : Nat) (cands : List Ent) : Bool :=
  match getV st v with
  | none => false
  | some w => w.halfEdges.any (fun e => ! cands.contains (Ent.e e))

/-! ### Face boundary-list registration (`Face.py` lines 306-331) -/

/-- `Face.remove_edge` (`Face.py` lines 319-331): drop the edge from the
boundary list, clear its face back-reference if it pointed here, and mark
it for cleanup when its twin has no face either. -/
def faceRemoveEdge (f e : Nat) (st : DState) : Res Unit :=
  match getF st f, getE st e with
  | some fc, some he =>
    if fc.edgeList = [] then (Except.ok (), st)
    else
      let st1 := if e ∈ fc.edgeList then
          updF st f (fun c => { c with edgeList := c.edgeList.erase e })
        else st
      let st2 := if he.face = some f then
          updE st1 e (fun h => { h with face := none })
        else st1
      match he.twin with
      | none =>
        (Except.ok (), updE st2 e (fun h => { h with markedForCleanup := true }))
      | some t =>
        match getE st2 t with
        | none => (Except.error "KeyError: halfedge", st2)
        | some th =>
          if th.face = none then
            (Except.ok (), updE st2 e (fun h => { h with markedForCleanup := true }))
          else (Except.ok (), st2)
  | _, _ => (Except.error "KeyError", st)

/-- The second half of `Face.add_edge` (`Face.py` lines 313-317):
invalidate the cached coordinate list, set the back-reference, append the
edge to the boundary list when absent, clear its cleanup mark. -/
def faceAddEdgeTail (f e : Nat) (st : DState) : Res Unit :=
  let st2 := updF st f (fun c => { c with coordList := none })
  let st3 := updE st2 e (fun h => { h with face := some f })
  match getF st3 f with
  | none => (Except.error "KeyError: face", st3)
  | some fc =>
    let st4 := if e ∈ fc.edgeList then st3
      else updF st3 f (fun c => { c with edgeList := c.edgeList ++ [e] })
    (Except.ok (), updE st4 e (fun h => { h with markedForCleanup := false }))

/-- `Face.add_edge` (`Face.py` lines 306-317): early-return when the edge
already claims this face; otherwise unhook it from its previous face and
run the registration tail. -/
def faceAddEdge (f e : Nat) (st : DState) : Res Unit :=
  match getF st f, getE st e with
  | some _, some he =>
    if he.face = some f then (Except.ok (), st)
    else
      estBind (match he.face with
               | some g => faceRemoveEdge g e st
               | none => (Except.ok (), st)) (fun _ st1 => faceAddEdgeTail f e st1)
  | _, _ => (Except.error "KeyError", st)

/-! ### Entity factory (the missing `DCEL.py`) -/

/-- Modelled from the spec: factory `newVertex(loc)` creates a fresh
vertex with an empty incidence set at the next monotonic index. -/
def newVertexF (loc : Pt) (st : DState) : Res Nat :=
  (Except.ok (insV st { loc := loc, halfEdges := [] }).1,
   (insV st { loc := loc, halfEdges := [] }).2)

def blankHE (origin twin : Option Nat) : HRec :=
  { origin := origin, twin := twin, nxt := none, prv := none, face := none,
    lengthSq := none, constrained := false, markedForCleanup := false }

/-- Modelled from the spec: factory
`newEdge(originVertex, endVertex, face?, twinFace?)` creates a mutually
referencing half-edge pair, registers each half at its origin vertex, and
attaches the halves to the given faces.  Returns the first half. -/
def newEdgeF (v1 v2 : Nat) (f1 f2 : Option Nat) (st : DState) : Res Nat :=
  match getV st v1 with
  | none => (Except.error "KeyError: vertex", st)
  | some _ =>
  match getV st v2 with
  | none => (Except.error "KeyError: vertex", st)
  | some _ =>
    let e1 := st.nextEIdx
    let e2 := st.nextEIdx + 1
    let st1 := (insE st (blankHE (some v1) (some e2))).2
    let st2 := (insE st1 (blankHE (some v2) (some e1))).2
    estBind (registerHE v1 e1 st2) (fun _ st3 =>
    estBind (registerHE v2 e2 st3) (fun _ st4 =>
    estBind (match f1 with
             | some f => faceAddEdge f e1 st4
             | none => (Except.ok (), st4)) (fun _ st5 =>
    estBind (match f2 with
             | some f => faceAddEdge f e2 st5
             | none => (Except.ok (), st5)) (fun _ st6 =>
    (Except.ok e1, st6)))))

/-- Modelled from the spec: factory `createEdge(loc1, loc2)` makes two
fresh vertices and a full edge between them. -/
def createEdgeF (loc1 loc2 : Pt) (st : DState) : Res Nat :=
  estBind (newVertexF loc1 st) (fun v1 st1 =>
  estBind (newVertexF loc2 st1) (fun v2 st2 =>
  newEdgeF v1 v2 none none st2))

/-- Modelled from the spec: factory `newFace()` with no site. -/
def newFaceF (st : DState) : Res Nat :=
  (Except.ok (insF st
    { site := none, edgeList := [], coordList := none, markedForCleanup := false }).1,
   (insF st
    { site := none, edgeList := [], coordList := none, markedForCleanup := false }).2)

/-- `HalfEdge.__init__` (`HalfEdge.py` lines 31-68) with explicit `origin`
and `twin` arguments: stores the given twin reference without touching
the twin's own record, and registers the half-edge with its origin
vertex when one is given. -/
def halfEdgeInit (origin twin : Option Nat) (st : DState) : Res Nat :=
  let i := (insE st (blankHE origin twin)).1
  let st1 := (insE st (blankHE origin twin)).2
  match origin with
  | some v => estBind (registerHE v i st1) (fun _ st2 => (Except.ok i, st2))
  | none => (Except.ok i, st1)

/-! ### HalfEdge: reads and elementary mutators (`HalfEdge.py`) -/

def locOf (st : DState) (v : Nat) : Option Pt := (getV st v).map (·.loc)

/-- `HalfEdge.toArray` (`HalfEdge.py` lines 872-874) as a pure read: the
pair of endpoint coordinates, raising on a missing origin/twin. -/
def toArrayE (st : DState) (i : Nat) : Except String (Pt × Pt) :=
  match getE st i with
  | none => Except.error "KeyError: halfedge"
  | some he =>
    match he.origin with
    | none => Except.error "AttributeError: NoneType"
    | some v1 =>
      match he.twin with
      | none => Except.error "AttributeError: NoneType"
      | some t =>
        match getE st t with
        | none => Except.error "KeyError: halfedge"
        | some th =>
          match th.origin with
          | none => Except.error "AttributeError: NoneType"
          | some v2 =>
            match getV st v1 with
            | none => Except.error "KeyError: vertex"
            | some a =>
              match getV st v2 with
              | none => Except.error "KeyError: vertex"
              | some b => Except.ok (a.loc, b.loc)

/-- `toArray` is free of side effects: the stateful form returns the
state unchanged by construction. -/
def toArrayHE (i : Nat) (st : DState) : Res (Pt × Pt) := (toArrayE st i, st)

def exMap {α β : Type} (x : Except String α) (g : α → β) : Except String β :=
  match x with
  | Except.ok a => Except.ok (g a)
  | Except.error m => Except.error m

/-- `HalfEdge.getVertices` (`HalfEdge.py` lines 866-870): the pair of
endpoint vertices, the second `none` when there is no twin. -/
def getVerticesHE (st : DState) (i : Nat) : Option (Option Nat × Option Nat) :=
  (getE st i).map (fun he =>
    match he.twin with
    | none => (he.origin, none)
    | some t => (he.origin, (getE st t).bind (fun th => th.origin)))

/-- `Face.getEdges` (`Face.py` lines 297-299): a copy of the boundary
list. -/
def getEdgesF (st : DState) (f : Nat) : Option (List Nat) :=
  (getF st f).map (·.edgeList)

/-- `HalfEdge.within` (`HalfEdge.py` lines 782-786). -/
def withinHE (i : Nat) (b : BBox) (st : DState) : Res Bool :=
  (exMap (toArrayE st i) (fun ab => ptWithin ab.1 b && ptWithin ab.2 b), st)

def endpointIds (st : DState) (he : HRec) : List Nat :=
  (match he.origin with | some v => [v] | none => []) ++
  (match he.twin with
   | none => []
   | some t =>
     match (getE st t).bind (fun th => th.origin) with
     | some v => [v]
     | none => [])

/-- `HalfEdge.outside` (`HalfEdge.py` lines 792-794): all present
endpoints outside the bbox. -/
def outsideHE (i : Nat) (b : BBox) (st : DState) : Res Bool :=
  ((match getE st i with
    | none => Except.error "KeyError: halfedge"
    | some he =>
      Except.ok ((endpointIds st he).all (fun v =>
        match locOf st v with
        | some p => ! ptWithin p b
        | none => false))), st)

/-- `HalfEdge.within_circle` (`HalfEdge.py` lines 788-790). -/
def withinCircleHE (i : Nat) (c : Pt) (r : ℚ) (st : DState) : Res (Bool × Bool) :=
  (exMap (toArrayE st i) (fun ab => (inCircleB c r ab.1, inCircleB c r ab.2)), st)

/-- `HalfEdge.getCloserAndFurther` (`HalfEdge.py` lines 876-884): endpoint
vertices ordered as (nearer, further) from a centre. -/
def getCloserAndFurtherE (st : DState) (i : Nat) (c : Pt) : Except String (Nat × Nat) :=
  match getE st i with
  | none => Except.error "KeyError: halfedge"
  | some he =>
    match he.origin with
    | none => Except.error "AttributeError: NoneType"
    | some v1 =>
      match he.twin with
      | none => Except.error "AttributeError: NoneType"
      | some t =>
        match getE st t with
        | none => Except.error "KeyError: halfedge"
        | some th =>
          match th.origin with
          | none => Except.error "AttributeError: NoneType"
          | some v2 =>
            match getV st v1 with
            | none => Except.error "KeyError: vertex"
            | some a =>
              match getV st v2 with
              | none => Except.error "KeyError: vertex"
              | some b =>
                if dist2 c a.loc < dist2 c b.loc then Except.ok (v1, v2)
                else Except.ok (v2, v1)

def getCloserAndFurther (i : Nat) (c : Pt) (st : DState) : Res (Nat × Nat) :=
  (getCloserAndFurtherE st i c, st)

/-- `HalfEdge.markForCleanup` (`HalfEdge.py` lines 927-929): marks this
half only. -/
def markForCleanupHE (i : Nat) (st : DState) : DState :=
  updE st i (fun h => { h with markedForCleanup := true })

/-- `HalfEdge.getLength_sq` (`HalfEdge.py` lines 279-286): cached squared
length, recomputed and stored when absent or forced. -/
def getLengthSq (i : Nat) (force : Bool) (st : DState) : Res ℚ :=
  estBind (getEd i st) (fun he st =>
  if force = false then
    match he.lengthSq with
    | some q => (Except.ok q, st)
    | none =>
      estBind (toArrayHE i st) (fun ab st =>
      (Except.ok (dist2 ab.1 ab.2),
       updE st i (fun h => { h with lengthSq := some (dist2 ab.1 ab.2) })))
  else
    estBind (toArrayHE i st) (fun ab st =>
    (Except.ok (dist2 ab.1 ab.2),
     updE st i (fun h => { h with lengthSq := some (dist2 ab.1 ab.2) }))))

/-- `HalfEdge.replaceVertex` (`HalfEdge.py` lines 858-863). -/
def replaceVertex (i newV : Nat) (st : DState) : Res Unit :=
  estBind (getEd i st) (fun he st =>
  estBind (unopt he.origin st) (fun v st =>
  estBind (unregisterHE v i st) (fun _ st =>
  let st2 := updE st i (fun h => { h with origin := some newV })
  registerHE newV i st2)))

/-- `HalfEdge.addNext` (`HalfEdge.py` lines 891-900). -/
def addNextHE (i : Nat) (nextE : Option Nat) (force : Bool) (st : DState) : Res Unit :=
  estBind (getEd i st) (fun he st =>
  let chk : Res Unit :=
    if force then (Except.ok (), st)
    else if he.nxt ≠ none then (Except.error "AssertionError", st)
    else match nextE with
      | some n =>
        match getE st n with
        | some nh =>
          if nh.prv ≠ none then (Except.error "AssertionError", st)
          else (Except.ok (), st)
        | none => (Except.error "KeyError: halfedge", st)
      | none => (Except.ok (), st)
  estBind chk (fun _ st =>
  let st1 := match he.nxt with
    | some old => updE st old (fun h => { h with prv := none })
    | none => st
  let st2 := updE st1 i (fun h => { h with nxt := nextE })
  let st3 := match nextE with
    | some n => updE st2 n (fun h => { h with prv := some i })
    | none => st2
  (Except.ok (), st3)))

/-- `HalfEdge.addPrev` (`HalfEdge.py` lines 902-912). -/
def addPrevHE (i : Nat) (prevE : Option Nat) (force : Bool) (st : DState) : Res Unit :=
  estBind (getEd i st) (fun he st =>
  let chk : Res Unit :=
    if force then (Except.ok (), st)
    else if he.prv ≠ none then (Except.error "AssertionError", st)
    else match prevE with
      | some n =>
        match getE st n with
        | some nh =>
          if nh.nxt ≠ none then (Except.error "AssertionError", st)
          else (Except.ok (), st)
        | none => (Except.error "KeyError: halfedge", st)
      | none => (Except.ok (), st)
  estBind chk (fun _ st =>
  let st1 := match he.prv with
    | some old => updE st old (fun h => { h with nxt := none })
    | none => st
  let st2 := updE st1 i (fun h => { h with prv := prevE })
  let st3 := match prevE with
    | some n => updE st2 n (fun h => { h with nxt := some i })
    | none => st2
  (Except.ok (), st3)))

/-- `HalfEdge.ccw` (`HalfEdge.py` lines 602-609): left-turn test. -/
def ccwB (a b c : Pt) : Bool := decide (0 ≤ crossZ (pSub b a) (pSub c a))

/-- `HalfEdge.he_ccw` (`HalfEdge.py` lines 628-631). -/
def heCcw (i : Nat) (centre : Pt) (st : DState) : Res Bool :=
  (exMap (toArrayE st i) (fun ab => ccwB centre ab.1 ab.2), st)

/-- `HalfEdge.swapFaces` (`HalfEdge.py` lines 810-822). -/
def swapFacesHE (i : Nat) (st : DState) : Res Unit :=
  estBind (getEd i st) (fun he st =>
  estBind (unopt he.face st) (fun ofc st =>
  estBind (unopt he.twin st) (fun t st =>
  estBind (getEd t st) (fun th st =>
  let tf := th.face
  estBind (faceRemoveEdge ofc i st) (fun _ st =>
  estBind (match tf with
           | some g => estBind (faceRemoveEdge g t st) (fun _ st => faceAddEdge g i st)
           | none => (Except.ok (), st)) (fun _ st =>
  faceAddEdge ofc t st))))))

/-- `HalfEdge.has_constraints` (`HalfEdge.py` lines 738-758): the edge,
its twin, their faces or endpoints are referenced from outside the
candidate set extended with the edge and its twin. -/
def hasConstraintsHE (st : DState) (i : Nat) (cands : List Ent) : Bool :=
  match getE st i with
  | none => false
  | some he =>
    let cps := match he.twin with
      | some t => Ent.e i :: Ent.e t :: cands
      | none => Ent.e i :: cands
    let c1 := match he.face with
      | some f => ! cps.contains (Ent.f f)
      | none => false
    let c2 := match he.origin with
      | some v => vtxHasConstraints st v cps
      | none => false
    let c3 := match he.twin with
      | none => false
      | some t =>
        match getE st t with
        | none => false
        | some th =>
          (match th.face with
           | some f => ! cps.contains (Ent.f f)
           | none => false) ||
          (match th.origin with
           | some v => vtxHasConstraints st v cps
           | none => false)
    c1 || c2 || c3

/-! ### HalfEdge: split and the copy-on-write edits -/

/-- The face-update tail of `HalfEdge.split` (`HalfEdge.py` lines
323-327): insert each new half into the owning face's boundary list on
its side. -/
def faceUpdStep (fu : Bool) (fo : Option Nat) (e : Nat) (st : DState) : Res Unit :=
  match fu, fo with
  | true, some f => faceAddEdge f e st
  | _, _ => (Except.ok (), st)

def splitFaceUpd (i t ne net : Nat) (fu : Bool) (st : DState) : Res Unit :=
  estBind (getEd i st) (fun heNow2 st =>
  estBind (faceUpdStep fu heNow2.face ne st) (fun _ st =>
  estBind (getEd t st) (fun thNow2 st =>
  estBind (faceUpdStep fu thNow2.face net st) (fun _ st =>
  (Except.ok (), st)))))

/-- `HalfEdge.split` (`HalfEdge.py` lines 292-328): insert a vertex into
the middle of the full edge, rewire the twin's origin, update vertex
registrations on both sides, refresh cached lengths, splice the new pair
into the next/prev cycle and into the owning faces' boundary lists. -/
def splitHE (i : Nat) (loc : Sum Pt Nat) (face_update : Bool) (st : DState) :
    Res (Nat × Nat) :=
  estBind (getEd i st) (fun he st =>
  estBind (unopt he.twin st) (fun t st =>
  estBind (getEd t st) (fun th st =>
  estBind (unopt th.origin st) (fun endV st =>
  estBind (match loc with
           | Sum.inl p => newVertexF p st
           | Sum.inr v => (Except.ok v, st)) (fun newPoint st =>
  estBind (newEdgeF newPoint endV none none st) (fun newE st =>
  estBind (getEd newE st) (fun neRec st =>
  estBind (unopt neRec.twin st) (fun newET st =>
  let st1 := updE st t (fun h => { h with origin := some newPoint })
  estBind (unregisterHE endV i st1) (fun _ st =>
  estBind (registerHE newPoint i st) (fun _ st =>
  estBind (registerHE newPoint t st) (fun _ st =>
  estBind (unregisterHE endV t st) (fun _ st =>
  estBind (registerHE endV newET st) (fun _ st =>
  estBind (getLengthSq i true st) (fun _ st =>
  estBind (getLengthSq t true st) (fun _ st =>
  estBind (getEd i st) (fun heNow st =>
  estBind (addNextHE newE heNow.nxt true st) (fun _ st =>
  estBind (getEd t st) (fun thNow st =>
  estBind (addPrevHE newET thNow.prv true st) (fun _ st =>
  estBind (addNextHE i (some newE) true st) (fun _ st =>
  estBind (addNextHE newET (some t) true st) (fun _ st =>
  estBind (splitFaceUpd i t newE newET face_update st) (fun _ st =>
  (Except.ok (newPoint, newE), st)))))))))))))))))))))))

/-- `HalfEdge.split_by_ratio` (`HalfEdge.py` lines 330-334): sample the
ratio point along the segment and delegate to `split`. -/
def splitByRatio (i : Nat) (r : ℚ) (face_update : Bool) (st : DState) :
    Res (Nat × Nat) :=
  estBind (toArrayHE i st) (fun ab st =>
  splitHE i (Sum.inl (sampleAt ab.1 ab.2 r)) face_update st)

/-- Target selector of `HalfEdge.translate`: relative direction times
distance, or absolute endpoint coordinates (`abs=True`). -/
inductive TTarget where
  | rel : Pt → ℚ → TTarget
  | abs2 : Pt → Pt → TTarget

/-- The copy-on-write tail shared verbatim by `HalfEdge.translate`
(lines 345-356) and `HalfEdge.rotate` (lines 407-417): an unforced edit
of a constrained edge creates a fresh full edge at the target
coordinates (`NEW`), otherwise both endpoint vertices are moved in place
(`MODIFIED`). -/
def cowMove (i : Nat) (target : Pt × Pt) (cands : List Ent) (force : Bool)
    (st : DState) : Res (Nat × EditE) :=
  if !force && hasConstraintsHE st i cands then
    estBind (createEdgeF target.1 target.2 st) (fun ne st =>
      (Except.ok (ne, EditE.NEW), st))
  else
    estBind (getEd i st) (fun he st =>
    estBind (unopt he.origin st) (fun v1 st =>
    estBind (unopt he.twin st) (fun t st =>
    estBind (getEd t st) (fun th st =>
    estBind (unopt th.origin st) (fun v2 st =>
    estBind (vtxTranslate v1 target.1 st) (fun _ st =>
    estBind (vtxTranslate v2 target.2 st) (fun _ st =>
    (Except.ok (i, EditE.MODIFIED), st))))))))

/-- `HalfEdge.translate` (`HalfEdge.py` lines 336-356): compute the target
coordinates, then follow the copy-on-write protocol. -/
def translateHE (i : Nat) (tgt : TTarget) (cands : List Ent) (force : Bool)
    (st : DState) : Res (Nat × EditE) :=
  estBind (match tgt with
           | TTarget.rel dir d =>
             estBind (toArrayHE i st) (fun ab st =>
               (Except.ok (pAdd ab.1 (pScale d dir), pAdd ab.2 (pScale d dir)), st))
           | TTarget.abs2 a b => (Except.ok ((a, b) : Pt × Pt), st)) (fun target st =>
  cowMove i target cands force st)

/-- Modelled from the spec: `rotatePoint` about a centre, parametrized by
the exact cosine and sine of the angle (rational stand-ins for the float
trigonometry of the geometry collaborator). -/
def rotatePt (p c : Pt) (cosr sinr : ℚ) : Pt :=
  (c.1 + cosr * (p.1 - c.1) - sinr * (p.2 - c.2),
   c.2 + sinr * (p.1 - c.1) + cosr * (p.2 - c.2))

/-- `HalfEdge.rotate` (`HalfEdge.py` lines 399-417): rotated coordinates
about a centre, then the same copy-on-write branching as `translate`. -/
def rotateHE (i : Nat) (c : Pt) (cosr sinr : ℚ) (cands : List Ent) (force : Bool)
    (st : DState) : Res (Nat × EditE) :=
  estBind (toArrayHE i st) (fun ab st =>
  cowMove i (rotatePt ab.1 c cosr sinr, rotatePt ab.2 c cosr sinr) cands force st)

/-- `HalfEdge.copy` (`HalfEdge.py` lines 76-89): copy the vertices
(fresh vertices at the same locations, per the spec's `Vertex.copy`) and
create a fresh full edge between them. -/
def copyHE (i : Nat) (st : DState) : Res Nat :=
  estBind (getEd i st) (fun he st =>
  estBind (unopt he.origin st) (fun v1 st =>
  estBind (unopt he.twin st) (fun t st =>
  estBind (getEd t st) (fun th st =>
  estBind (unopt th.origin st) (fun v2 st =>
  estBind (getVx v1 st) (fun a st =>
  estBind (getVx v2 st) (fun b st =>
  estBind (newVertexF a.loc st) (fun nv1 st =>
  estBind (newVertexF b.loc st) (fun nv2 st =>
  newEdgeF nv1 nv2 none none st)))))))))

/-- `HalfEdge.constrain_to_circle` (`HalfEdge.py` lines 419-466): no-op
when both endpoints are inside, cleanup-mark when both are outside;
otherwise pick the line-circle intersection nearest the *further*
endpoint and move (or, under copy-on-write, clone then move) that
further endpoint there. -/
def constrainToCircle (i : Nat) (centre : Pt) (r : ℚ) (cands : List Ent)
    (force : Bool) (st : DState) : Res (Nat × EditE) :=
  estBind (withinCircleHE i centre r st) (fun results st =>
  if results.1 && results.2 then (Except.ok (i, EditE.MODIFIED), st)
  else if !results.1 && !results.2 then
    (Except.ok (i, EditE.MODIFIED), markForCleanupHE i st)
  else
  estBind (getCloserAndFurther i centre st) (fun cf st =>
  estBind (getVx cf.1 st) (fun cv st =>
  estBind (getVx cf.2 st) (fun fv st =>
  let intersections := lineCircleIntersect cv.loc fv.loc centre r
  let distances := intersections.map (fun p => dist2 fv.loc p)
  if intersections = [] then (Except.error "ValueError: argmin of empty", st)
  else
  let closest := intersections.getD (argminIdx distances) (0, 0)
  if !force && hasConstraintsHE st i cands then
    estBind (newVertexF closest st) (fun vertTarget st =>
    estBind (copyHE i st) (fun target st =>
    let st2 := markForCleanupHE i st
    estBind (getEd i st2) (fun he st =>
    estBind (if he.origin = some cf.2 then replaceVertex target vertTarget st
             else
               estBind (getEd target st) (fun trec st =>
               estBind (unopt trec.twin st) (fun tt st =>
               replaceVertex tt vertTarget st))) (fun _ st =>
    (Except.ok (target, EditE.NEW), st)))))
  else
    estBind (getEd i st) (fun he st =>
    if he.origin = some cf.2 then
      (Except.ok (i, EditE.MODIFIED),
       updV st cf.2 (fun w => { w with loc := closest }))
    else
      estBind (unopt he.twin st) (fun t st =>
      estBind (getEd t st) (fun th st =>
      estBind (unopt th.origin st) (fun tv st =>
      (Except.ok (i, EditE.MODIFIED),
       updV st tv (fun w => { w with loc := closest }))))))))))

/-- `HalfEdge.intersects_bbox` (`HalfEdge.py` lines 529-559): intersection
points of the segment with the four bbox sides, with side labels; more
than two results violates the source's assertion. -/
def intersectsBboxE (st : DState) (i : Nat) (b : BBox) :
    Except String (List (Pt × BSide)) :=
  match getE st i with
  | none => Except.error "KeyError: halfedge"
  | some he =>
    match he.twin with
    | none => Except.error "AttributeError: NoneType"
    | some t =>
      match getE st t with
      | none => Except.error "KeyError: halfedge"
      | some th =>
        if he.origin = none ∨ th.origin = none then
          Except.error "Invalid line boundary test"
        else
          match toArrayE st i with
          | Except.error m => Except.error m
          | Except.ok seg =>
            let result := (bboxToLines b).filterMap (fun ls =>
              (segIntersect seg ls.1).map (fun p => (p, ls.2)))
            if 3 ≤ result.length then Except.error "AssertionError"
            else Except.ok result

def intersectsBbox (i : Nat) (b : BBox) (st : DState) : Res (List (Pt × BSide)) :=
  (intersectsBboxE st i b, st)

/-- `HalfEdge.constrain_to_bbox`, forced path (`HalfEdge.py` lines
472-512): classify the edge against the bbox; move the single outside
endpoint in the one-crossing case.  In the two-crossing case the loop
body reads the local variable `intersect_coords`, which is assigned only
in the one-crossing branch of the same call and is therefore unbound
here: the first iteration raises `UnboundLocalError` before any
mutation. -/
def constrainToBboxForced (i : Nat) (b : BBox) (st : DState) : Res (Nat × EditE) :=
  estBind (intersectsBbox i b st) (fun intersections st =>
  estBind (getEd i st) (fun he st =>
  estBind (unopt he.origin st) (fun v1 st =>
  estBind (unopt he.twin st) (fun t st =>
  estBind (getEd t st) (fun th st =>
  estBind (unopt th.origin st) (fun v2 st =>
  estBind (withinHE i b st) (fun isWithin st =>
  estBind (outsideHE i b st) (fun isOutside st =>
  if isWithin then (Except.ok (i, EditE.MODIFIED), st)
  else if isOutside then (Except.ok (i, EditE.MODIFIED), markForCleanupHE i st)
  else
  match intersections with
  | [] => (Except.error "Edge Constraining: Part in and out, with no intersection", st)
  | [(ic, _)] =>
    estBind (getVx v1 st) (fun a st =>
    estBind (getVx v2 st) (fun bv st =>
    let outs := (if ! ptWithin a.loc b then [v1] else []) ++
                (if ! ptWithin bv.loc b then [v2] else [])
    match outs with
    | [ov] =>
      let target := if ov = v1 then i else t
      estBind (newVertexF ic st) (fun nv st =>
      estBind (replaceVertex target nv st) (fun _ st =>
      (Except.ok (i, EditE.MODIFIED), st)))
    | _ => (Except.error "AssertionError", st)))
  | _ :: _ :: _ =>
    (Except.error "UnboundLocalError: intersect_coords", st)))))))))

/-- `HalfEdge.constrain_to_bbox` (`HalfEdge.py` lines 468-471): the
copy-on-write wrapper, cloning and re-entering with `force=True` when
constrained. -/
def constrainToBbox (i : Nat) (b : BBox) (cands : List Ent) (force : Bool)
    (st : DState) : Res (Nat × EditE) :=
  if !force && hasConstraintsHE st i cands then
    estBind (copyHE i st) (fun ep st =>
    estBind (constrainToBboxForced ep b st) (fun res st =>
    (Except.ok (res.1, EditE.NEW), st)))
  else constrainToBboxForced i b st

/-! ### Face: centroids, sorting, subdivide (`Face.py`) -/

/-- Origin locations of a boundary list, failing on a missing origin. -/
def originLocs (st : DState) (es : List Nat) : Except String (List Pt) :=
  es.foldr
    (fun e acc =>
      match acc with
      | Except.error m => Except.error m
      | Except.ok ps =>
        match (getE st e).bind (fun he => he.origin.bind (locOf st)) with
        | some p => Except.ok (p :: ps)
        | none => Except.error "AttributeError: origin")
    (Except.ok [])

/-- `Face.getAvgCentroid` (`Face.py` lines 274-281): the average of the
boundary edges' origin locations; when the face has no site, the average
is *stored* as the site.  (For an empty boundary the source produces a
float NaN; the rational embedding yields zero by total division.) -/
def getAvgCentroid (f : Nat) (st : DState) : Res Pt :=
  estBind (getFc f st) (fun fc st =>
  match originLocs st fc.edgeList with
  | Except.error m => (Except.error m, st)
  | Except.ok ps =>
    let k : ℚ := fc.edgeList.length
    let s := ps.foldl pAdd ((0 : ℚ), (0 : ℚ))
    let norm : Pt := (s.1 / k, s.2 / k)
    if fc.site = none then
      (Except.ok norm, updF st f (fun c => { c with site := some norm }))
    else (Except.ok norm, st))

/-- `Face.getCentroid` (`Face.py` lines 266-271): the site when set, else
the averaged centroid (which then caches itself into the site). -/
def getCentroidF (f : Nat) (st : DState) : Res Pt :=
  estBind (getFc f st) (fun fc st =>
  match fc.site with
  | some s => (Except.ok s, st)
  | none => getAvgCentroid f st)

/-- The centroid as read by the sort comparator (`HalfEdge.__lt__` calls
`self.face.getCentroid()`).  By the time `list.sort` runs inside
`sort_edges`, the initial `getCentroid` call has already cached a site
into every face involved, so the comparator's centroid is a pure read;
this pure function agrees with `getCentroidF` whenever the site is set. -/
def getCentroidPure (st : DState) (f : Nat) : Pt :=
  match getF st f with
  | none => ((0 : ℚ), (0 : ℚ))
  | some fc =>
    match fc.site with
    | some s => s
    | none =>
      let ps := fc.edgeList.filterMap
        (fun e => (getE st e).bind (fun he => he.origin.bind (locOf st)))
      let k : ℚ := fc.edgeList.length
      let s := ps.foldl pAdd ((0 : ℚ), (0 : ℚ))
      (s.1 / k, s.2 / k)

/-- `HalfEdge.__lt__` via `HalfEdge.compareEdges` (`HalfEdge.py` lines
581-595, 624-625): compare two boundary edges by the normalized angle of
their origins about the face centroid. -/
def edgeLt (st : DState) (a b : Nat) : Bool :=
  match getE st a, getE st b with
  | some ha, some hb =>
    match ha.face with
    | none => false
    | some f =>
      let c := getCentroidPure st f
      let oa := (ha.origin.bind (locOf st)).getD ((0 : ℚ), (0 : ℚ))
      let ob := (hb.origin.bind (locOf st)).getD ((0 : ℚ), (0 : ℚ))
      angLE (pSub oa c) (pSub ob c)
  | _, _ => false

/-- The orientation-repair pass of `Face.sort_edges`: swap faces with the
twin for each boundary edge not counter-clockwise about the centre. -/
def ccwSwapLoop (centre : Pt) (es : List Nat) (st : DState) : Res Unit :=
  match es with
  | [] => (Except.ok (), st)
  | e :: rest =>
    estBind (heCcw e centre st) (fun isCcw st =>
    if isCcw then ccwSwapLoop centre rest st
    else estBind (swapFacesHE e st) (fun _ st => ccwSwapLoop centre rest st))

def allCcwE (st : DState) (centre : Pt) : List Nat → Except String Bool
  | [] => Except.ok true
  | e :: rest =>
    match toArrayE st e with
    | Except.error m => Except.error m
    | Except.ok ab =>
      match allCcwE st centre rest with
      | Except.error m => Except.error m
      | Except.ok b => Except.ok (ccwB centre ab.1 ab.2 && b)

/-- `Face.sort_edges` (`Face.py` lines 333-351): repair orientation by
twin-swapping, check all boundary edges are CCW about the centroid (the
source drops into a debugger on failure, embedded as an error), then sort
the boundary list angularly. -/
def sortEdges (f : Nat) (st : DState) : Res Unit :=
  estBind (getCentroidF f st) (fun centre st =>
  estBind (getFc f st) (fun fc st =>
  estBind (ccwSwapLoop centre fc.edgeList st) (fun _ st =>
  estBind (getFc f st) (fun fc2 st =>
  estBind ((allCcwE st centre fc2.edgeList, st)) (fun allOk st =>
  if !allOk then (Except.error "AssertionError: ccw", st)
  else
    (Except.ok (),
     updF st f (fun c => { c with edgeList := sortBy (edgeLt st) c.edgeList })))))))

/-- Modelled from the spec: `get_bisector` - the direction perpendicular
(to the left) of the segment from `a` to `b`; with `extend_line` it
shoots the subdivision probe from the split point into the face. -/
def bisectorDir (a b : Pt) : Pt := (-(b.2 - a.2), b.1 - a.1)

/-- The probe loop of `Face.subdivide`: the first boundary edge other
than the split halves that the probe segment intersects. -/
def probeLoopE (st : DState) (el : Pt × Pt) (edge newEdge : Nat) :
    List Nat → Except String (Option (Pt × Nat))
  | [] => Except.ok none
  | he :: rest =>
    if he = edge ∨ he = newEdge then probeLoopE st el edge newEdge rest
    else
      match toArrayE st he with
      | Except.error m => Except.error m
      | Except.ok hc =>
        match segIntersect el hc with
        | some p => Except.ok (some (p, he))
        | none => probeLoopE st el edge newEdge rest

/-- First while-loop of `Face.subdivide`: collect the next-chain from
`start` up to (excluding) `stop`, failing on a missing next link.  The
fuel bounds the unguarded source loop. -/
def walkChain (start stop : Nat) (fuel : Nat) (st : DState) : Res (List Nat) :=
  match fuel with
  | 0 => (Except.error "loop guard", st)
  | fuel + 1 =>
    if start = stop then (Except.ok [], st)
    else
      estBind (getEd start st) (fun he st =>
      match he.nxt with
      | none => (Except.error "AssertionError: next is None", st)
      | some n =>
        estBind (walkChain n stop fuel st) (fun rest st =>
        (Except.ok (start :: rest), st)))

/-- Second while-loop of `Face.subdivide`: as `walkChain`, but assigning
each collected edge's face to the new face as it goes. -/
def walkChainAssign (start stop newFace : Nat) (fuel : Nat) (st : DState) :
    Res (List Nat) :=
  match fuel with
  | 0 => (Except.error "loop guard", st)
  | fuel + 1 =>
    if start = stop then (Except.ok [], st)
    else
      estBind (getEd start st) (fun he st =>
      match he.nxt with
      | none => (Except.error "AssertionError: next is None", st)
      | some n =>
        let st1 := updE st start (fun h => { h with face := some newFace })
        estBind (walkChainAssign n stop newFace fuel st1) (fun rest st =>
        (Except.ok (start :: rest), st)))

/-- `Face.subdivide` (`Face.py` lines 363-444): sort the boundary, split
the chosen edge at the ratio point, shoot a probe from the split point
along the bisector (the `angle` argument is range-checked but, as in the
source, it does not enter the probe direction), split the *first* other
boundary edge the probe intersects (raising only when no boundary edge is
intersected), create the dividing edge between the two new vertices,
splice it into both loops, then partition the boundary between the
original face and a fresh face by walking the next-chains. -/
def subdivideF (f edge : Nat) (ratio : Option ℚ) (angle : ℚ) (fuel : Nat)
    (st : DState) : Res (Nat × Nat) :=
  estBind (sortEdges f st) (fun _ st =>
  let r := ratio.getD (1 / 2)
  estBind (getFc f st) (fun fc st =>
  if edge ∉ fc.edgeList then (Except.error "AssertionError: edge not in face", st)
  else if ¬ (0 ≤ r ∧ r ≤ 1) then (Except.error "AssertionError: ratio", st)
  else if ¬ (-90 ≤ angle ∧ angle ≤ 90) then (Except.error "AssertionError: angle", st)
  else
  estBind (splitByRatio edge r true st) (fun pe st =>
  estBind (toArrayHE edge st) (fun asCoords st =>
  let bis := bisectorDir asCoords.1 asCoords.2
  estBind (getVx pe.1 st) (fun npv st =>
  let el : Pt × Pt := (npv.loc, pAdd npv.loc (pScale 1000 bis))
  estBind (getFc f st) (fun fc2 st =>
  estBind ((probeLoopE st el edge pe.2 fc2.edgeList, st)) (fun probe st =>
  match probe with
  | none => (Except.error "AssertionError: intersection is None", st)
  | some (intersection, oppEdge) =>
    estBind (splitHE oppEdge (Sum.inl intersection) true st) (fun oe st =>
    estBind (newFaceF st) (fun newFace st =>
    estBind (newEdgeF pe.1 oe.1 (some f) (some newFace) st) (fun dividing st =>
    estBind (getEd dividing st) (fun de st =>
    estBind (unopt de.twin st) (fun dt st =>
    estBind (addPrevHE dividing (some edge) true st) (fun _ st =>
    estBind (addNextHE dividing (some oe.2) true st) (fun _ st =>
    estBind (addPrevHE dt (some oppEdge) true st) (fun _ st =>
    estBind (addNextHE dt (some pe.2) true st) (fun _ st =>
    estBind (walkChain oe.2 edge fuel st) (fun lst1 st =>
    estBind (walkChainAssign pe.2 oppEdge newFace fuel st) (fun lst2 st =>
    let stA := updE st oppEdge (fun h => { h with face := some newFace })
    let stB := updF stA f (fun c => { c with edgeList := lst1 ++ [edge, dividing] })
    let stC := updF stB newFace
      (fun c => { c with edgeList := lst2 ++ [oppEdge, dt] })
    (Except.ok (f, newFace), stC)))))))))))))))))))

/-! ### Concrete states used by the claim theorems -/

def st0 : DState :=
  { verts := [], hedges := [], faces := [], nextVIdx := 0, nextEIdx := 0, nextFIdx := 0 }

def mkHE (o tw nx pv fc : Option Nat) : HRec :=
  { origin := o, twin := tw, nxt := nx, prv := pv, face := fc,
    lengthSq := none, constrained := false, markedForCleanup := false }

/-- The spec's claimed invariant at one half-edge: when a twin is present,
the twin's twin reference points back. -/
def twinTwinSelf (st : DState) (i : Nat) : Bool :=
  match (getE st i).bind (fun he => he.twin) with
  | none => true
  | some t => decide ((getE st t).bind (fun th => th.twin) = some i)

def hasTwinB (st : DState) (i : Nat) : Bool :=
  ((getE st i).bind (fun he => he.twin)).isSome

/-- `HalfEdge(); HalfEdge(twin=first)`: the second constructor call passes
an explicit twin argument (as in `test_vertices` of the test suite). -/
def c1State : DState :=
  (estBind (halfEdgeInit none none st0) (fun h st => halfEdgeInit none (some h) st)).2

/-- A single full edge `(0,0) -> (1,0)` made by the factory. -/
def stUnit : DState := (createEdgeF ((0 : ℚ), (0 : ℚ)) ((1 : ℚ), (0 : ℚ)) st0).2

/-- A full edge `(0,1/2) -> (2,1/2)`, straddling the bbox `(0,0,1,1)`
with exactly two boundary crossings, at `(0,1/2)` and `(1,1/2)`. -/
def stC5 : DState := (createEdgeF ((0 : ℚ), (1/2 : ℚ)) ((2 : ℚ), (1/2 : ℚ)) st0).2

/-- The spec's own instance: edge `(5,0) -> (7,0)` against the circle
centred `(5,0)` with radius 1. -/
def stC8 : DState := (createEdgeF ((5 : ℚ), (0 : ℚ)) ((7 : ℚ), (0 : ℚ)) st0).2

/-- Edge `(-9/10,0) -> (2,0)` against the unit circle: the two line-circle
intersections `(-1,0)` and `(1,0)` are at *different* distances from each
endpoint, separating "nearer the inside endpoint" from "nearer the
outside endpoint". -/
def stC8b : DState :=
  (createEdgeF ((-9/10 : ℚ), (0 : ℚ)) ((2 : ℚ), (0 : ℚ)) st0).2

/-- A face with a single boundary edge `(0,0) -> (1,0)` and site `(0,1)`:
the subdivision probe cannot cross any *other* boundary edge. -/
def stC6 : DState :=
  { verts := [(0, ⟨((0 : ℚ), (0 : ℚ)), [0]⟩), (1, ⟨((1 : ℚ), (0 : ℚ)), [1]⟩)],
    hedges := [(0, mkHE (some 0) (some 1) none none (some 0)),
               (1, mkHE (some 1) (some 0) none none none)],
    faces := [(0, { site := some ((0 : ℚ), (1 : ℚ)), edgeList := [0],
                    coordList := none, markedForCleanup := false })],
    nextVIdx := 2, nextEIdx := 2, nextFIdx := 1 }

/-- A convex pentagon face `(0,0), (4,0), (4,2), (2,4), (0,2)` with site
`(2, 3/2)`, boundary edges linked into a next/prev cycle and the boundary
list already in angular order.  Subdividing the bottom edge at its
midpoint shoots the probe straight up through the apex vertex `(2,4)`,
which lies on *two* boundary edges. -/
def stC7 : DState :=
  { verts := [(0, ⟨((0 : ℚ), (0 : ℚ)), [0, 9]⟩), (1, ⟨((4 : ℚ), (0 : ℚ)), [2, 1]⟩),
              (2, ⟨((4 : ℚ), (2 : ℚ)), [4, 3]⟩), (3, ⟨((2 : ℚ), (4 : ℚ)), [6, 5]⟩),
              (4, ⟨((0 : ℚ), (2 : ℚ)), [8, 7]⟩)],
    hedges := [(0, mkHE (some 0) (some 1) (some 2) (some 8) (some 0)),
               (1, mkHE (some 1) (some 0) none none none),
               (2, mkHE (some 1) (some 3) (some 4) (some 0) (some 0)),
               (3, mkHE (some 2) (some 2) none none none),
               (4, mkHE (some 2) (some 5) (some 6) (some 2) (some 0)),
               (5, mkHE (some 3) (some 4) none none none),
               (6, mkHE (some 3) (some 7) (some 8) (some 4) (some 0)),
               (7, mkHE (some 4) (some 6) none none none),
               (8, mkHE (some 4) (some 9) (some 0) (some 6) (some 0)),
               (9, mkHE (some 0) (some 8) none none none)],
    faces := [(0, { site := some ((2 : ℚ), (3/2 : ℚ)), edgeList := [4, 6, 8, 0, 2],
                    coordList := none, markedForCleanup := false })],
    nextVIdx := 5, nextEIdx := 10, nextFIdx := 1 }

/-- A face with no site whose single boundary edge originates at `(1,2)`. -/
def stC9 : DState :=
  { verts := [(0, ⟨((1 : ℚ), (2 : ℚ)), [0]⟩), (1, ⟨((3 : ℚ), (4 : ℚ)), [1]⟩)],
    hedges := [(0, mkHE (some 0) (some 1) none none (some 0)),
               (1, mkHE (some 1) (some 0) none none none)],
    faces := [(0, { site := none, edgeList := [0],
                    coordList := none, markedForCleanup := false })],
    nextVIdx := 2, nextEIdx := 2, nextFIdx := 1 }

/-- A half-edge already claiming face 0 (`e.face is self`) while marked
for cleanup, absent from the boundary list, with a populated coordinate
cache on the face. -/
def stC10 : DState :=
  { verts := [(0, ⟨((0 : ℚ), (0 : ℚ)), [0]⟩), (1, ⟨((1 : ℚ), (1 : ℚ)), [1]⟩)],
    hedges := [(0, { origin := some 0, twin := some 1, nxt := none, prv := none,
                     face := some 0, lengthSq := none, constrained := false,
                     markedForCleanup := true }),
               (1, mkHE (some 1) (some 0) none none none)],
    faces := [(0, { site := none, edgeList := [],
                    coordList := some [((0 : ℚ), (0 : ℚ))], markedForCleanup := false })],
    nextVIdx := 2, nextEIdx := 2, nextFIdx := 1 }

/-- The segment of a half-edge as a pure partial read. -/
def segOf (st : DState) (j : Nat) : Option (Pt × Pt) :=
  (getE st j).bind (fun he =>
  he.origin.bind (fun v1 =>
  he.twin.bind (fun t =>
  (getE st t).bind (fun th =>
  th.origin.bind (fun v2 =>
  (locOf st v1).bind (fun p1 =>
  (locOf st v2).map (fun p2 => (p1, p2))))))))

/-- How many boundary edges other than the two split halves the
subdivision probe crosses. -/
def probeCross (st : DState) (el : Pt × Pt) (edge newEdge : Nat)
    (es : List Nat) : Nat :=
  (es.filter (fun j =>
    j ≠ edge && j ≠ newEdge &&
    (match segOf st j with
     | some s => (segIntersect el s).isSome
     | none => false))).length

deriving instance DecidableEq for Except

/-! ### Claim theorems: concrete counterexamples and code-bug witnesses -/

/-- C1: counterexample.  A `HalfEdge` constructed with an explicit twin
argument (`HalfEdge(twin=he)`, as in the test suite's `test_vertices`)
has a twin, yet `e.twin.twin == e` fails: the constructor stores the
forward reference only and never sets the back reference, so
`e.twin.twin` is `None`. -/
theorem C1_counterexample :
    hasTwinB c1State 1 = true ∧ twinTwinSelf c1State 1 = false := by with_unfolding_all decide

/-- C4: evaluating `split` at the failing input.  Splitting the edge
`(0,0) -> (1,0)` at `(1/2,0)` registers half-edge 0 - whose origin is
still vertex 0 - into the *new* vertex 2's incidence set
(`newPoint.registerHalfEdge(self)` in `HalfEdge.py` line 311), so the new
vertex's incidence set contains a half-edge whose origin is elsewhere,
violating the vertex-incidence invariant the claim states. -/
theorem C4_thm :
    (splitHE 0 (Sum.inl ((1/2 : ℚ), (0 : ℚ))) true stUnit).1 = Except.ok (2, 2) ∧
    ((getV (splitHE 0 (Sum.inl ((1/2 : ℚ), (0 : ℚ))) true stUnit).2 2).map
      Vtx.halfEdges) = some [2, 0, 1] ∧
    ((getE (splitHE 0 (Sum.inl ((1/2 : ℚ), (0 : ℚ))) true stUnit).2 0).bind
      HRec.origin) = some 0 := by with_unfolding_all decide

/-- C5: evaluating `constrain_to_bbox` at the failing input.  The edge
`(0,1/2) -> (2,1/2)` crosses the bbox `(0,0,1,1)` at exactly two points,
`(0,1/2)` and `(1,1/2)`; the forced constrain raises (the two-crossing
loop body reads the unassigned local `intersect_coords`) and neither
endpoint is moved, instead of moving each endpoint to its nearest
crossing and reporting `MODIFIED` as the claim states. -/
theorem C5_thm :
    (intersectsBbox 0 ⟨0, 0, 1, 1⟩ stC5).1 =
      Except.ok [(((0 : ℚ), (1/2 : ℚ)), BSide.VLEFT),
                 (((1 : ℚ), (1/2 : ℚ)), BSide.VRIGHT)] ∧
    (constrainToBbox 0 ⟨0, 0, 1, 1⟩ [] true stC5).1 =
      Except.error "UnboundLocalError: intersect_coords" ∧
    (constrainToBbox 0 ⟨0, 0, 1, 1⟩ [] true stC5).2 = stC5 := by with_unfolding_all decide

/-- C6: counterexample.  `Face.subdivide` on the single-edge face raises
the no-opposite-crossing degeneracy error, but only *after* splitting the
edge: in the state at the raise, the first half's twin has been rewired
to the new vertex 2 (it originated at vertex 1 before the call) and the
face boundary list has grown from `[0]` to `[0, 2]` - observable partial
mutation, contradicting the claim. -/
theorem C6_counterexample :
    (subdivideF 0 0 none 0 100 stC6).1 =
      Except.error "AssertionError: intersection is None" ∧
    ((getE (subdivideF 0 0 none 0 100 stC6).2 1).bind HRec.origin) = some 2 ∧
    ((getE stC6 1).bind HRec.origin) = some 1 ∧
    ((getF (subdivideF 0 0 none 0 100 stC6).2 0).map FRec.edgeList) = some [0, 2] ∧
    ((getF stC6 0).map FRec.edgeList) = some [0] := by with_unfolding_all decide

/-- The pentagon state after `sort_edges` and the initial split, i.e. the
state in which `Face.subdivide` runs its probe loop. -/
def c7mid : DState := (splitByRatio 0 (1/2) true (sortEdges 0 stC7).2).2

/-- C7: counterexample.  In the pentagon, the probe from the split point
`(2,0)` crosses *two* of the face's other boundary edges (both through
the apex `(2,4)`), yet `subdivide` does not raise: it succeeds and
returns the two faces, splitting just the first crossed edge. -/
theorem C7_counterexample :
    probeCross c7mid (((2 : ℚ), (0 : ℚ)), ((2 : ℚ), (2000 : ℚ))) 0 10
      (((getF c7mid 0).map FRec.edgeList).getD []) = 2 ∧
    (subdivideF 0 0 none 0 100 stC7).1 = Except.ok (0, 1) := by with_unfolding_all decide

/-- C8: counterexample.  For the edge `(-9/10,0) -> (2,0)` against the
unit circle, the line-circle intersections are `(-1,0)` and `(1,0)`; the
intersection nearer the *inside* endpoint `(-9/10,0)` is `(-1,0)`, but
the code moves the outside endpoint to `(1,0)` - the intersection nearer
the *outside* endpoint - refuting the claim's "nearer the inside
endpoint". -/
theorem C8_counterexample :
    ((getV (constrainToCircle 0 ((0 : ℚ), (0 : ℚ)) 1 [] false stC8b).2 1).map
      Vtx.loc) = some ((1 : ℚ), (0 : ℚ)) ∧
    (constrainToCircle 0 ((0 : ℚ), (0 : ℚ)) 1 [] false stC8b).1 =
      Except.ok (0, EditE.MODIFIED) ∧
    ((-1 : ℚ), (0 : ℚ)) ∈
      lineCircleIntersect ((-9/10 : ℚ), (0 : ℚ)) ((2 : ℚ), (0 : ℚ))
        ((0 : ℚ), (0 : ℚ)) 1 ∧
    dist2 ((-9/10 : ℚ), (0 : ℚ)) ((-1 : ℚ), (0 : ℚ)) <
      dist2 ((-9/10 : ℚ), (0 : ℚ)) ((1 : ℚ), (0 : ℚ)) := by with_unfolding_all decide

/-- C9: counterexample.  `getCentroid` on a face with no site is not free
of side effects: it stores the averaged centroid into `Face.site`
(`getAvgCentroid`, `Face.py` lines 279-280), so the state after the call
differs from the state before. -/
theorem C9_counterexample :
    (getCentroidF 0 stC9).2 ≠ stC9 ∧
    ((getF (getCentroidF 0 stC9).2 0).bind FRec.site) = some ((1 : ℚ), (2 : ℚ)) ∧
    ((getF stC9 0).bind FRec.site) = none := by with_unfolding_all decide

/-- C10: counterexample.  When the edge already claims the face
(`edge.face is self`), `add_edge` returns immediately: the cleanup mark
stays `True`, the cached coordinate list is not invalidated, and the edge
is not appended to the boundary list even though it is absent - against
the claim's unconditional reset/invalidate/append-if-absent. -/
theorem C10_counterexample :
    faceAddEdge 0 0 stC10 = (Except.ok (), stC10) ∧
    ((getE stC10 0).map HRec.markedForCleanup) = some true ∧
    ((getF stC10 0).map FRec.coordList) = some (some [((0 : ℚ), (0 : ℚ))]) ∧
    ((getF stC10 0).map FRec.edgeList) = some [] := by with_unfolding_all decide

/-! ### C9 and C10: amended characterizations -/

/-- The averaged-centroid formula of `getAvgCentroid`. -/
def cAvg (ps : List Pt) (k : Nat) : Pt :=
  ((ps.foldl pAdd ((0 : ℚ), (0 : ℚ))).1 / k,
   (ps.foldl pAdd ((0 : ℚ), (0 : ℚ))).2 / k)

/-- C9 (amended): `toArray` is free of side effects, and `getCentroid` is
side-effect free on a face whose site is set; but on a face with no site
it stores the averaged centroid into `Face.site`.  (`getVertices` and
`getEdges` are embedded as pure reads, `getVerticesHE`/`getEdgesF`.) -/
theorem C9_thm :
    (∀ (i : Nat) (st : DState), (toArrayHE i st).2 = st) ∧
    (∀ (st : DState) (f : Nat) (fc : FRec) (s : Pt),
      getF st f = some fc → fc.site = some s →
      getCentroidF f st = (Except.ok s, st)) ∧
    (∀ (st : DState) (f : Nat) (fc : FRec) (ps : List Pt),
      getF st f = some fc → fc.site = none →
      originLocs st fc.edgeList = Except.ok ps →
      getCentroidF f st =
        (Except.ok (cAvg ps fc.edgeList.length),
         updF st f (fun c => { c with site := some (cAvg ps fc.edgeList.length) }))) := by
  refine ⟨?_, ?_, ?_⟩
  · intro i st
    rfl
  · intro st f fc s hf hs
    unfold getCentroidF
    simp only [getFc, hf, estBind, hs]
  · intro st f fc ps hf hs hl
    unfold getCentroidF getAvgCentroid
    simp only [getFc, hf, estBind, hs, hl, cAvg]
    simp

/-- C9 witness: the amended theorem applied to the site-less face
`stC9`. -/
theorem C9_thm_witness :
    getCentroidF 0 stC9 =
      (Except.ok (cAvg [((1 : ℚ), (2 : ℚ))] 1),
       updF stC9 0 (fun c => { c with site := some (cAvg [((1 : ℚ), (2 : ℚ))] 1) })) :=
  C9_thm.2.2 stC9 0 _ [((1 : ℚ), (2 : ℚ))] rfl rfl rfl

/-- Erasing from an empty or non-containing list is the identity on the
face record. -/
theorem erase_self_of_not_mem (fcg : FRec) (e : Nat) (h : ¬ e ∈ fcg.edgeList) :
    ({ fcg with edgeList := fcg.edgeList.erase e } : FRec) = fcg := by
  cases fcg with
  | mk s el c m => simp only [FRec.mk.injEq, and_true, true_and]
                   exact List.erase_of_not_mem h

/-- Characterization of the registration tail of `Face.add_edge`. -/
theorem faceAddEdgeTail_spec (st : DState) (f e : Nat) (fc : FRec) (he : HRec)
    (hf : getF st f = some fc) (hee : getE st e = some he) :
    (faceAddEdgeTail f e st).1 = Except.ok () ∧
    getE (faceAddEdgeTail f e st).2 e =
      some { he with face := some f, markedForCleanup := false } ∧
    getF (faceAddEdgeTail f e st).2 f =
      some { fc with coordList := none,
                     edgeList := if e ∈ fc.edgeList then fc.edgeList
                                 else fc.edgeList ++ [e] } ∧
    (∀ j, j ≠ f → getF (faceAddEdgeTail f e st).2 j = getF st j) ∧
    (∀ j, j ≠ e → getE (faceAddEdgeTail f e st).2 j = getE st j) ∧
    (faceAddEdgeTail f e st).2.verts = st.verts := by
  simp only [faceAddEdgeTail, getF_updE, getF_updF, hf, eq_self_iff_true,
             if_true, Option.map_some']
  by_cases hmem : e ∈ fc.edgeList
  · simp only [hmem, if_true]
    refine ⟨trivial, ?_, ?_, ?_, ?_, by rfl⟩
    · simp [getE_updE, getE_updF, hee]
    · simp [getF_updE, getF_updF, hf, hmem]
    · intro j hj; simp [getF_updE, getF_updF, hj]
    · intro j hj; simp [getE_updE, getE_updF, hj]
  · simp only [hmem, if_false]
    refine ⟨trivial, ?_, ?_, ?_, ?_, by rfl⟩
    · simp [getE_updE, getE_updF, getF_updF, hee]
    · simp [getF_updE, getF_updF, hf, hmem]
    · intro j hj; simp [getF_updE, getF_updF, hj]
    · intro j hj; simp [getE_updE, getE_updF, hj]

/-- Characterization of `Face.remove_edge` under resolvable references. -/
theorem faceRemoveEdge_spec (st : DState) (g e : Nat) (fcg : FRec) (he : HRec)
    (hfg : getF st g = some fcg) (hee : getE st e = some he)
    (htw : he.twin = none ∨
           ∃ t th, he.twin = some t ∧ t ≠ e ∧ getE st t = some th) :
    (faceRemoveEdge g e st).1 = Except.ok () ∧
    getF (faceRemoveEdge g e st).2 g =
      some { fcg with edgeList := fcg.edgeList.erase e } ∧
    (∀ j, j ≠ g → getF (faceRemoveEdge g e st).2 j = getF st j) ∧
    (∃ fo mk, getE (faceRemoveEdge g e st).2 e =
      some { he with face := fo, markedForCleanup := mk }) ∧
    (∀ j, j ≠ e → getE (faceRemoveEdge g e st).2 j = getE st j) ∧
    (faceRemoveEdge g e st).2.verts = st.verts := by
  rcases htw with htn | ⟨t, th, ht, hte, hth⟩
  · refine ⟨?_, ?_, fun j hj => ?_,
      ⟨(if fcg.edgeList = [] then he.face
        else if he.face = some g then none else he.face),
       (if fcg.edgeList = [] then he.markedForCleanup else true), ?_⟩,
      fun j hj => ?_, ?_⟩ <;>
      · by_cases hnil : fcg.edgeList = [] <;> by_cases hmem : e ∈ fcg.edgeList <;>
          by_cases hfc : he.face = some g <;>
          simp_all [faceRemoveEdge, getE_updE, getE_updF, getF_updF, getF_updE,
                    verts_updE, verts_updF, List.erase_of_not_mem] <;>
          (try cases he) <;> (try cases fcg) <;> simp_all
  · refine ⟨?_, ?_, fun j hj => ?_,
      ⟨(if fcg.edgeList = [] then he.face
        else if he.face = some g then none else he.face),
       (if fcg.edgeList = [] then he.markedForCleanup
        else if th.face = none then true else he.markedForCleanup), ?_⟩,
      fun j hj => ?_, ?_⟩ <;>
      · by_cases hthf : th.face = none <;> by_cases hnil : fcg.edgeList = [] <;>
          by_cases hmem : e ∈ fcg.edgeList <;> by_cases hfc : he.face = some g <;>
          simp_all [faceRemoveEdge, getE_updE, getE_updF, getF_updF, getF_updE,
                    verts_updE, verts_updF, List.erase_of_not_mem] <;>
          (try cases he) <;> (try cases fcg) <;> simp_all
/-- C10 (amended): full characterization of `Face.add_edge`.  When the
edge already claims the face the call is a no-op (nothing is reset,
invalidated or appended); otherwise the edge is removed from its previous
face's boundary list, the cache is invalidated, the back-reference set,
the edge appended to the boundary list only when absent, and the cleanup
mark cleared. -/
theorem C10_thm (st : DState) (f e : Nat) (fc : FRec) (he : HRec)
    (hf : getF st f = some fc) (hee : getE st e = some he)
    (htw : he.twin = none ∨
           ∃ t th, he.twin = some t ∧ t ≠ e ∧ getE st t = some th) :
    (he.face = some f → faceAddEdge f e st = (Except.ok (), st)) ∧
    (he.face = none →
      (faceAddEdge f e st).1 = Except.ok () ∧
      getE (faceAddEdge f e st).2 e =
        some { he with face := some f, markedForCleanup := false } ∧
      getF (faceAddEdge f e st).2 f =
        some { fc with coordList := none,
                       edgeList := if e ∈ fc.edgeList then fc.edgeList
                                   else fc.edgeList ++ [e] }) ∧
    (∀ (g : Nat) (fcg : FRec), he.face = some g → g ≠ f → getF st g = some fcg →
      (faceAddEdge f e st).1 = Except.ok () ∧
      getE (faceAddEdge f e st).2 e =
        some { he with face := some f, markedForCleanup := false } ∧
      getF (faceAddEdge f e st).2 f =
        some { fc with coordList := none,
                       edgeList := if e ∈ fc.edgeList then fc.edgeList
                                   else fc.edgeList ++ [e] } ∧
      getF (faceAddEdge f e st).2 g =
        some { fcg with edgeList := fcg.edgeList.erase e }) := by
  refine ⟨?_, ?_, ?_⟩
  · intro hface
    simp [faceAddEdge, hf, hee, hface]
  · intro hnone
    have hx : faceAddEdge f e st = faceAddEdgeTail f e st := by
      simp [faceAddEdge, hf, hee, hnone, estBind]
    have hspec := faceAddEdgeTail_spec st f e fc he hf hee
    rw [hx]
    exact ⟨hspec.1, hspec.2.1, hspec.2.2.1⟩
  · intro g fcg hg hgf hfg
    obtain ⟨hok, hg', hgfr, ⟨fo, mk, hee'⟩, hefr, hverts⟩ :=
      faceRemoveEdge_spec st g e fcg he hfg hee htw
    rcases hr : faceRemoveEdge g e st with ⟨a, st1⟩
    rw [hr] at hok hg' hgfr hee'
    subst hok
    have hx : faceAddEdge f e st = faceAddEdgeTail f e st1 := by
      simp [faceAddEdge, hf, hee, hg, hgf, hr, estBind]
    have hf1 : getF st1 f = some fc := by rw [hgfr f (Ne.symm hgf)]; exact hf
    have hspec := faceAddEdgeTail_spec st1 f e fc
      { he with face := fo, markedForCleanup := mk } hf1 hee'
    rw [hx]
    exact ⟨hspec.1, hspec.2.1, hspec.2.2.1,
           by rw [hspec.2.2.2.1 g hgf]; exact hg'⟩

/-- C10 witness: the characterization applied to half-edge 1 of `stC10`
(whose face is unset), added to face 0. -/
theorem C10_thm_witness :
    (faceAddEdge 0 1 stC10).1 = Except.ok () ∧
    getE (faceAddEdge 0 1 stC10).2 1 =
      some { origin := some 1, twin := some 0, nxt := none, prv := none,
             face := some 0, lengthSq := none, constrained := false,
             markedForCleanup := false } ∧
    getF (faceAddEdge 0 1 stC10).2 0 =
      some { site := none, edgeList := [1], coordList := none,
             markedForCleanup := false } :=
  (C10_thm stC10 0 1 _ _ rfl rfl
    (Or.inr ⟨0, _, rfl, by decide, rfl⟩)).2.1 rfl

/-- `replaceVertex` succeeds when the edge, its origin and the new vertex
all resolve. -/
theorem replaceVertex_res (st : DState) (i newV v : Nat) (he : HRec) (w u : Vtx)
    (hee : getE st i = some he) (hv : he.origin = some v)
    (hw : getV st v = some w) (hu : getV st newV = some u) :
    (replaceVertex i newV st).1 = Except.ok () := by
  simp only [replaceVertex, estBind, getEd, unopt, hee, hv, unregisterHE, hw]
  by_cases hnv : newV = v <;>
    simp [registerHE, getV_updE, getV_updV, hnv, hu, hw]

/-- C6 (amended), general half: whenever the forced
`HalfEdge.constrain_to_bbox` raises, the state at the raise equals the
state before the call - all its checks and failures precede any
mutation.  Combined with the concrete half: `Face.subdivide`'s
no-opposite-crossing raise happens only after the initial split, whose
mutations (the rewired twin origin) remain observable. -/
theorem C6_thm :
    (∀ (st : DState) (i : Nat) (b : BBox) (he th : HRec) (t v1 v2 : Nat) (a bv : Vtx),
      getE st i = some he → he.origin = some v1 → he.twin = some t →
      getE st t = some th → th.origin = some v2 →
      getV st v1 = some a → getV st v2 = some bv → boundedB st = true →
      ∀ msg, (constrainToBboxForced i b st).1 = Except.error msg →
        (constrainToBboxForced i b st).2 = st) ∧
    ((subdivideF 0 0 none 0 100 stC6).1 =
        Except.error "AssertionError: intersection is None" ∧
     ((getE (subdivideF 0 0 none 0 100 stC6).2 1).bind HRec.origin) = some 2 ∧
     ((getE stC6 1).bind HRec.origin) = some 1) := by
  constructor
  · intro st i b he th t v1 v2 a bv hee hv1 ht hth hv2 ha hb hbound msg
    have hta : toArrayE st i = Except.ok (a.loc, bv.loc) := by
      simp [toArrayE, hee, hv1, ht, hth, hv2, ha, hb]
    have hnone : getV st st.nextVIdx = none := by
      have hvb : st.verts.all (fun p => p.1 < st.nextVIdx) = true := by
        simp only [boundedB, Bool.and_eq_true] at hbound
        exact hbound.1.1
      exact alook_of_bounded _ _ _ hvb le_rfl
    cases hib : intersectsBboxE st i b with
    | error m => simp [constrainToBboxForced, intersectsBbox, estBind, hib]
    | ok lst =>
      simp only [constrainToBboxForced, intersectsBbox, estBind, hib, getEd,
                 unopt, hee, hv1, ht, hth, hv2, withinHE, outsideHE, exMap, hta]
      cases hw : ptWithin a.loc b && ptWithin bv.loc b with
      | true => simp
      | false =>
        simp only [Bool.false_eq_true, if_false]
        cases ho : (endpointIds st he).all (fun v =>
            match locOf st v with
            | some p => ! ptWithin p b
            | none => false) with
        | true => simp
        | false =>
          simp only [Bool.false_eq_true, if_false]
          rcases lst with _ | ⟨⟨ic, side⟩, _ | ⟨y, rest⟩⟩
          · intro _; rfl
          · simp only [getVx, ha, hb]
            rcases houts : ((if ! ptWithin a.loc b then [v1] else []) ++
                (if ! ptWithin bv.loc b then [v2] else [])) with _ | ⟨ov, _ | ⟨o2, rest2⟩⟩
            · intro _; rfl
            · simp only [newVertexF, estBind]
              have hok1 : (replaceVertex (if ov = v1 then i else t)
                  (insV st { loc := ic, halfEdges := [] }).1
                  (insV st { loc := ic, halfEdges := [] }).2).1 = Except.ok () := by
                by_cases hov : ov = v1
                · rw [if_pos hov]
                  refine replaceVertex_res _ _ _ v1 he a ⟨ic, []⟩ hee hv1 ?_ ?_
                  · rw [getV_insV]; simp [ha]
                  · rw [getV_insV]; simp [insV, hnone]
                · rw [if_neg hov]
                  refine replaceVertex_res _ _ _ v2 th bv ⟨ic, []⟩ hth hv2 ?_ ?_
                  · rw [getV_insV]; simp [hb]
                  · rw [getV_insV]; simp [insV, hnone]
              rcases hrv : replaceVertex (if ov = v1 then i else t)
                  (insV st { loc := ic, halfEdges := [] }).1
                  (insV st { loc := ic, halfEdges := [] }).2 with ⟨rv1, rv2⟩
              rw [hrv] at hok1
              simp only at hok1
              subst hok1
              simp only [hrv]
              simp
            · intro _; rfl
          · intro _; rfl
  · exact ⟨by with_unfolding_all decide, by with_unfolding_all decide,
           by with_unfolding_all decide⟩

/-- C6 witness: the general no-mutation-on-raise clause applied to the
two-crossing `UnboundLocalError` raise on `stC5`. -/
theorem C6_thm_witness :
    (constrainToBboxForced 0 ⟨0, 0, 1, 1⟩ stC5).2 = stC5 :=
  C6_thm.1 stC5 0 ⟨0, 0, 1, 1⟩ _ _ 1 0 1 _ _
    (by with_unfolding_all rfl) (by with_unfolding_all rfl)
    (by with_unfolding_all rfl) (by with_unfolding_all rfl)
    (by with_unfolding_all rfl) (by with_unfolding_all rfl)
    (by with_unfolding_all rfl) (by with_unfolding_all decide)
    "UnboundLocalError: intersect_coords" (by with_unfolding_all decide)

/-! ### C3: the copy-on-write protocol for translate and rotate -/

theorem alook_some_bounded {α : Type} (l : List (Nat × α)) (n i : Nat) (x : α)
    (hb : l.all (fun p => p.1 < n) = true) (h : alook l i = some x) : i < n := by
  induction l with
  | nil => simp [alook] at h
  | cons p l ih =>
    simp only [List.all_cons, Bool.and_eq_true, decide_eq_true_eq] at hb
    by_cases hpi : p.1 = i
    · omega
    · simp only [alook, hpi, if_false] at h
      exact ih hb.2 h

/-- `createEdge` returns the next edge index and leaves every existing
vertex untouched. -/
theorem createEdgeF_spec (st : DState) (p q : Pt) (hbound : boundedB st = true) :
    (createEdgeF p q st).1 = Except.ok st.nextEIdx ∧
    (∀ j a', getV st j = some a' → getV (createEdgeF p q st).2 j = some a') := by
  have hvb : st.verts.all (fun x => x.1 < st.nextVIdx) = true := by
    simp only [boundedB, Bool.and_eq_true] at hbound
    exact hbound.1.1
  have hnone1 : getV st st.nextVIdx = none := alook_of_bounded _ _ _ hvb le_rfl
  have hnone2 : getV st (st.nextVIdx + 1) = none :=
    alook_of_bounded _ _ _ hvb (by omega)
  have hnv : alook st.verts st.nextVIdx = (none : Option Vtx) := hnone1
  have hnv2 : alook st.verts (st.nextVIdx + 1) = (none : Option Vtx) := hnone2
  have hne12 : ¬ st.nextVIdx + 1 = st.nextVIdx := by omega
  constructor
  · simp [createEdgeF, newVertexF, estBind, newEdgeF, registerHE, insV, insE,
          updV, getV, alook_append, alook_aupd, alook, hnv, hnv2, hne12]
  · intro j a' hj
    have hjlt : j < st.nextVIdx := alook_some_bounded _ _ _ _ hvb hj
    have hne1 : ¬ st.nextVIdx = j := by omega
    have hne2 : ¬ st.nextVIdx + 1 = j := by omega
    have hne1' : ¬ j = st.nextVIdx := by omega
    have hne2' : ¬ j = st.nextVIdx + 1 := by omega
    have hj' : alook st.verts j = some a' := hj
    simp [createEdgeF, newVertexF, estBind, newEdgeF, registerHE, insV, insE,
          updV, getV, alook_append, alook_aupd, alook, hnv, hnv2, hne12,
          hne1, hne2, hne1', hne2', hj']

/-- The copy-on-write contract of the shared edit tail. -/
theorem cowMove_spec (st : DState) (i t v1 v2 : Nat) (he th : HRec) (a bv : Vtx)
    (cands : List Ent) (target : Pt × Pt)
    (hee : getE st i = some he) (hv1 : he.origin = some v1)
    (ht : he.twin = some t) (hth : getE st t = some th)
    (hv2 : th.origin = some v2)
    (ha : getV st v1 = some a) (hb : getV st v2 = some bv)
    (hvv : v1 ≠ v2) (hbound : boundedB st = true) :
    (hasConstraintsHE st i cands = true →
      (cowMove i target cands false st).1 = Except.ok (st.nextEIdx, EditE.NEW) ∧
      getV (cowMove i target cands false st).2 v1 = some a ∧
      getV (cowMove i target cands false st).2 v2 = some bv) ∧
    ((cowMove i target cands true st).1 = Except.ok (i, EditE.MODIFIED) ∧
     getV (cowMove i target cands true st).2 v1 = some { a with loc := target.1 } ∧
     getV (cowMove i target cands true st).2 v2 = some { bv with loc := target.2 }) := by
  constructor
  · intro hcon
    obtain ⟨hc1, hc2⟩ := createEdgeF_spec st target.1 target.2 hbound
    rcases hcr : createEdgeF target.1 target.2 st with ⟨c1, c2⟩
    rw [hcr] at hc1 hc2
    simp only at hc1
    subst hc1
    simp only [cowMove, hcon, Bool.not_false, Bool.true_and, if_true, hcr,
               estBind_ok]
    exact ⟨trivial, hc2 v1 a ha, hc2 v2 bv hb⟩
  · simp only [cowMove, Bool.not_true, Bool.false_and, Bool.false_eq_true,
               if_false, estBind, getEd, unopt, hee, hv1, ht, hth, hv2,
               vtxTranslate, ha]
    have hb2 : getV (updV st v1 (fun w => { w with loc := target.1 })) v2 =
        some bv := by
      rw [getV_updV, if_neg (Ne.symm hvv)]
      exact hb
    simp only [hb2]
    refine ⟨trivial, ?_, ?_⟩
    · rw [getV_updV, if_neg hvv, getV_updV, if_pos rfl, ha]
      rfl
    · rw [getV_updV, if_pos rfl, hb2]
      rfl

/-- The target coordinates `HalfEdge.translate` computes. -/
def targetOf (tgt : TTarget) (p q : Pt) : Pt × Pt :=
  match tgt with
  | TTarget.rel dir d => (pAdd p (pScale d dir), pAdd q (pScale d dir))
  | TTarget.abs2 x y => (x, y)

/-- C3: the copy-on-write protocol for the geometry edits.  An unforced
`translate`/`rotate` of a constrained half-edge returns a fresh edge
tagged `NEW` and leaves the original endpoints' coordinates untouched;
the same edit forced returns the original tagged `MODIFIED` with its
endpoints moved to the computed target coordinates. -/
theorem C3_thm (st : DState) (i t v1 v2 : Nat) (he th : HRec) (a bv : Vtx)
    (cands : List Ent)
    (hee : getE st i = some he) (hv1 : he.origin = some v1)
    (ht : he.twin = some t) (hth : getE st t = some th)
    (hv2 : th.origin = some v2)
    (ha : getV st v1 = some a) (hb : getV st v2 = some bv)
    (hvv : v1 ≠ v2) (hbound : boundedB st = true)
    (hcon : hasConstraintsHE st i cands = true) :
    (∀ tgt : TTarget,
      (translateHE i tgt cands false st).1 = Except.ok (st.nextEIdx, EditE.NEW) ∧
      getV (translateHE i tgt cands false st).2 v1 = some a ∧
      getV (translateHE i tgt cands false st).2 v2 = some bv) ∧
    (∀ tgt : TTarget,
      (translateHE i tgt cands true st).1 = Except.ok (i, EditE.MODIFIED) ∧
      getV (translateHE i tgt cands true st).2 v1 =
        some { a with loc := (targetOf tgt a.loc bv.loc).1 } ∧
      getV (translateHE i tgt cands true st).2 v2 =
        some { bv with loc := (targetOf tgt a.loc bv.loc).2 }) ∧
    (∀ (c : Pt) (cosr sinr : ℚ),
      (rotateHE i c cosr sinr cands false st).1 = Except.ok (st.nextEIdx, EditE.NEW) ∧
      getV (rotateHE i c cosr sinr cands false st).2 v1 = some a ∧
      getV (rotateHE i c cosr sinr cands false st).2 v2 = some bv) ∧
    (∀ (c : Pt) (cosr sinr : ℚ),
      (rotateHE i c cosr sinr cands true st).1 = Except.ok (i, EditE.MODIFIED) ∧
      getV (rotateHE i c cosr sinr cands true st).2 v1 =
        some { a with loc := rotatePt a.loc c cosr sinr } ∧
      getV (rotateHE i c cosr sinr cands true st).2 v2 =
        some { bv with loc := rotatePt bv.loc c cosr sinr }) := by
  have hta : toArrayE st i = Except.ok (a.loc, bv.loc) := by
    simp [toArrayE, hee, hv1, ht, hth, hv2, ha, hb]
  have htr : ∀ (tgt : TTarget) (fo : Bool),
      translateHE i tgt cands fo st =
        cowMove i (targetOf tgt a.loc bv.loc) cands fo st := by
    intro tgt fo
    cases tgt <;> simp [translateHE, toArrayHE, hta, estBind, targetOf]
  have hro : ∀ (c : Pt) (cosr sinr : ℚ) (fo : Bool),
      rotateHE i c cosr sinr cands fo st =
        cowMove i (rotatePt a.loc c cosr sinr, rotatePt bv.loc c cosr sinr)
          cands fo st := by
    intro c cosr sinr fo
    simp [rotateHE, toArrayHE, hta, estBind]
  refine ⟨?_, ?_, ?_, ?_⟩
  · intro tgt
    rw [htr]
    exact (cowMove_spec st i t v1 v2 he th a bv cands _
      hee hv1 ht hth hv2 ha hb hvv hbound).1 hcon
  · intro tgt
    rw [htr]
    exact (cowMove_spec st i t v1 v2 he th a bv cands _
      hee hv1 ht hth hv2 ha hb hvv hbound).2
  · intro c cosr sinr
    rw [hro]
    exact (cowMove_spec st i t v1 v2 he th a bv cands _
      hee hv1 ht hth hv2 ha hb hvv hbound).1 hcon
  · intro c cosr sinr
    rw [hro]
    exact (cowMove_spec st i t v1 v2 he th a bv cands _
      hee hv1 ht hth hv2 ha hb hvv hbound).2

/-- Two full edges sharing both endpoint vertices (as in the test
`test_halfedge_has_constraints_true_dualEdge`): each constrains the
other. -/
def stC3 : DState :=
  (estBind (newVertexF ((5 : ℚ), (5 : ℚ)) st0) (fun w1 st =>
   estBind (newVertexF ((10 : ℚ), (10 : ℚ)) st) (fun w2 st =>
   estBind (newEdgeF w1 w2 none none st) (fun _ st =>
   newEdgeF w1 w2 none none st)))).2

/-- C3 witness: an unforced translate of the constrained edge 0 of `stC3`
returns a fresh edge tagged `NEW` and leaves both original endpoints at
their coordinates. -/
theorem C3_thm_witness :
    (translateHE 0 (TTarget.rel ((1 : ℚ), (0 : ℚ)) 1) [] false stC3).1 =
      Except.ok (stC3.nextEIdx, EditE.NEW) ∧
    getV (translateHE 0 (TTarget.rel ((1 : ℚ), (0 : ℚ)) 1) [] false stC3).2 0 =
      some ⟨((5 : ℚ), (5 : ℚ)), [0, 2]⟩ ∧
    getV (translateHE 0 (TTarget.rel ((1 : ℚ), (0 : ℚ)) 1) [] false stC3).2 1 =
      some ⟨((10 : ℚ), (10 : ℚ)), [1, 3]⟩ :=
  (C3_thm stC3 0 1 0 1 _ _ _ _ []
    (by with_unfolding_all rfl) (by with_unfolding_all rfl)
    (by with_unfolding_all rfl) (by with_unfolding_all rfl)
    (by with_unfolding_all rfl) (by with_unfolding_all rfl)
    (by with_unfolding_all rfl) (by decide)
    (by with_unfolding_all decide) (by with_unfolding_all decide)).1
    (TTarget.rel ((1 : ℚ), (0 : ℚ)) 1)

/-! ### Projection views and frame lemmas for the `split` development -/

/-- The `origin` field of a half-edge record, viewed through the store. -/
def eOrigin (st : DState) (j : Nat) : Option (Option Nat) :=
  (getE st j).map HRec.origin

/-- The `twin` field of a half-edge record, viewed through the store. -/
def eTwin (st : DState) (j : Nat) : Option (Option Nat) :=
  (getE st j).map HRec.twin

/-- The `face` field of a half-edge record, viewed through the store. -/
def eFace (st : DState) (j : Nat) : Option (Option Nat) :=
  (getE st j).map HRec.face

theorem eOrigin_updE_of (st : DState) (k j : Nat) (g : HRec → HRec)
    (hg : ∀ h, (g h).origin = h.origin) :
    eOrigin (updE st k g) j = eOrigin st j := by
  unfold eOrigin
  rw [getE_updE]
  split
  · cases getE st j <;> simp [hg]
  · rfl

theorem eTwin_updE_of (st : DState) (k j : Nat) (g : HRec → HRec)
    (hg : ∀ h, (g h).twin = h.twin) :
    eTwin (updE st k g) j = eTwin st j := by
  unfold eTwin
  rw [getE_updE]
  split
  · cases getE st j <;> simp [hg]
  · rfl

theorem eFace_updE_of (st : DState) (k j : Nat) (g : HRec → HRec)
    (hg : ∀ h, (g h).face = h.face) :
    eFace (updE st k g) j = eFace st j := by
  unfold eFace
  rw [getE_updE]
  split
  · cases getE st j <;> simp [hg]
  · rfl

theorem eOrigin_updF (st : DState) (k j : Nat) (g : FRec → FRec) :
    eOrigin (updF st k g) j = eOrigin st j := rfl

theorem eTwin_updF (st : DState) (k j : Nat) (g : FRec → FRec) :
    eTwin (updF st k g) j = eTwin st j := rfl

theorem eFace_updF (st : DState) (k j : Nat) (g : FRec → FRec) :
    eFace (updF st k g) j = eFace st j := rfl

theorem eOrigin_updV (st : DState) (k j : Nat) (g : Vtx → Vtx) :
    eOrigin (updV st k g) j = eOrigin st j := rfl

theorem eTwin_updV (st : DState) (k j : Nat) (g : Vtx → Vtx) :
    eTwin (updV st k g) j = eTwin st j := rfl

theorem eFace_updV (st : DState) (k j : Nat) (g : Vtx → Vtx) :
    eFace (updV st k g) j = eFace st j := rfl

theorem getE_updE_ne (st : DState) (k j : Nat) (g : HRec → HRec)
    (h : j ≠ k) : getE (updE st k g) j = getE st j := by
  rw [getE_updE, if_neg h]

theorem eFace_updE_ne (st : DState) (k j : Nat) (g : HRec → HRec)
    (h : j ≠ k) : eFace (updE st k g) j = eFace st j := by
  unfold eFace
  rw [getE_updE_ne st k j g h]

theorem isSome_getE_updE (st : DState) (k j : Nat) (g : HRec → HRec) :
    (getE (updE st k g) j).isSome = (getE st j).isSome := by
  rw [getE_updE]
  split
  · cases getE st j <;> rfl
  · rfl

theorem isSome_getF_updF (st : DState) (k j : Nat) (g : FRec → FRec) :
    (getF (updF st k g) j).isSome = (getF st j).isSome := by
  rw [getF_updF]
  split
  · cases getF st j <;> rfl
  · rfl

theorem faces_updE (st : DState) (k : Nat) (g : HRec → HRec) :
    (updE st k g).faces = st.faces := rfl

theorem faces_updV (st : DState) (k : Nat) (g : Vtx → Vtx) :
    (updV st k g).faces = st.faces := rfl

theorem verts_updV_eq (st : DState) (k : Nat) (g : Vtx → Vtx) :
    (updV st k g).verts = aupd st.verts k g := rfl

theorem getV_eq_of_verts (st1 st2 : DState) (j : Nat)
    (h : st1.verts = st2.verts) : getV st1 j = getV st2 j := by
  unfold getV
  rw [h]

/-- `(x, st)`-level reduction of `estBind` from a first-component fact. -/
theorem estBind_of_ok {α β : Type} (x : Res α) (a : α) (f : α → DState → Res β)
    (h : x.1 = Except.ok a) : estBind x f = f a x.2 := by
  obtain ⟨r, st⟩ := x
  simp only at h
  subst h
  rfl

/-- Forced `getLength_sq` on a resolvable edge: computes, caches, returns. -/
theorem getLengthSq_force (i : Nat) (st : DState) (he : HRec) (ab : Pt × Pt)
    (h1 : getE st i = some he) (h2 : toArrayE st i = Except.ok ab) :
    getLengthSq i true st =
      (Except.ok (dist2 ab.1 ab.2),
       updE st i (fun h => { h with lengthSq := some (dist2 ab.1 ab.2) })) := by
  simp [getLengthSq, getEd, unopt, estBind, toArrayHE, h1, h2]

/-- Forced `addNext` on a present edge succeeds and only rewires
`next`/`prev` pointers: origins, twins, faces, vertices and face records
are untouched. -/
theorem addNextHE_frame (i : Nat) (nextE : Option Nat) (st : DState) (he : HRec)
    (h1 : getE st i = some he) :
    (addNextHE i nextE true st).1 = Except.ok () ∧
    (∀ j, eOrigin (addNextHE i nextE true st).2 j = eOrigin st j) ∧
    (∀ j, eTwin (addNextHE i nextE true st).2 j = eTwin st j) ∧
    (∀ j, eFace (addNextHE i nextE true st).2 j = eFace st j) ∧
    (addNextHE i nextE true st).2.verts = st.verts ∧
    (addNextHE i nextE true st).2.faces = st.faces ∧
    (∀ j, (getE (addNextHE i nextE true st).2 j).isSome = (getE st j).isSome) := by
  simp only [addNextHE, getEd, unopt, estBind, h1]
  cases he.nxt <;> cases nextE <;>
    simp [eOrigin_updE_of, eTwin_updE_of, eFace_updE_of, isSome_getE_updE,
          verts_updE, faces_updE]

/-- Forced `addPrev` on a present edge: the mirror frame. -/
theorem addPrevHE_frame (i : Nat) (prevE : Option Nat) (st : DState) (he : HRec)
    (h1 : getE st i = some he) :
    (addPrevHE i prevE true st).1 = Except.ok () ∧
    (∀ j, eOrigin (addPrevHE i prevE true st).2 j = eOrigin st j) ∧
    (∀ j, eTwin (addPrevHE i prevE true st).2 j = eTwin st j) ∧
    (∀ j, eFace (addPrevHE i prevE true st).2 j = eFace st j) ∧
    (addPrevHE i prevE true st).2.verts = st.verts ∧
    (addPrevHE i prevE true st).2.faces = st.faces ∧
    (∀ j, (getE (addPrevHE i prevE true st).2 j).isSome = (getE st j).isSome) := by
  simp only [addPrevHE, getEd, unopt, estBind, h1]
  cases he.prv <;> cases prevE <;>
    simp [eOrigin_updE_of, eTwin_updE_of, eFace_updE_of, isSome_getE_updE,
          verts_updE, faces_updE]

/-- `Face.add_edge` on an edge that currently claims no face: the
previous-face unhook is skipped, the registration tail succeeds, and
only the edge's `face`/cleanup fields and the face's caches change. -/
theorem faceAddEdge_fresh (f e : Nat) (st : DState) (he : HRec) (fc : FRec)
    (h1 : getE st e = some he) (hface : he.face = none)
    (h2 : getF st f = some fc) :
    (faceAddEdge f e st).1 = Except.ok () ∧
    (∀ j, eOrigin (faceAddEdge f e st).2 j = eOrigin st j) ∧
    (∀ j, eTwin (faceAddEdge f e st).2 j = eTwin st j) ∧
    (∀ j, j ≠ e → eFace (faceAddEdge f e st).2 j = eFace st j) ∧
    (faceAddEdge f e st).2.verts = st.verts ∧
    (∀ j, (getE (faceAddEdge f e st).2 j).isSome = (getE st j).isSome) ∧
    (∀ j, (getF (faceAddEdge f e st).2 j).isSome = (getF st j).isSome) := by
  simp only [faceAddEdge, h1, h2, hface, estBind, reduceCtorEq, if_false]
  have hfa : getF (updE (updF st f fun c => { c with coordList := none }) e
      fun h => { h with face := some f }) f =
      some { fc with coordList := none } := by
    rw [getF_updE, getF_updF]
    simp [h2]
  simp only [faceAddEdgeTail, hfa]
  refine ⟨?_, fun j => ?_, fun j => ?_, fun j hj => ?_, ?_, fun j => ?_,
          fun j => ?_⟩
  · trivial
  · split <;> simp [eOrigin_updE_of, eOrigin_updF]
  · split <;> simp [eTwin_updE_of, eTwin_updF]
  · split <;> simp [eFace_updE_ne, eFace_updF, hj]
  · split <;> simp [verts_updE, verts_updF]
  · split <;> simp [isSome_getE_updE, getE_updF]
  · split <;> simp [getF_updE, isSome_getF_updF]

/-- The face-update tail of `split` on the two freshly created halves:
it succeeds whenever the claimed faces resolve, and it never changes an
origin, a twin reference, or a vertex. -/
theorem splitFaceUpd_spec (i t ne net : Nat) (fu : Bool) (st : DState)
    (hei het hner hnetr : HRec)
    (h1 : getE st i = some hei) (h2 : getE st t = some het)
    (h3 : getE st ne = some hner) (hnef : hner.face = none)
    (h4 : getE st net = some hnetr) (hnetf : hnetr.face = none)
    (htne : t ≠ ne) (hnetne : net ≠ ne)
    (hfi : ∀ g, hei.face = some g → (getF st g).isSome = true)
    (hft : ∀ g, het.face = some g → (getF st g).isSome = true) :
    (splitFaceUpd i t ne net fu st).1 = Except.ok () ∧
    (∀ j, eOrigin (splitFaceUpd i t ne net fu st).2 j = eOrigin st j) ∧
    (∀ j, eTwin (splitFaceUpd i t ne net fu st).2 j = eTwin st j) ∧
    (splitFaceUpd i t ne net fu st).2.verts = st.verts := by
  have hstepF : ∀ (fo : Option Nat) (e : Nat) (st' : DState),
      faceUpdStep false fo e st' = (Except.ok (), st') := by
    intro fo e st'
    cases fo <;> rfl
  cases fu
  · simp only [splitFaceUpd, getEd, h1, estBind_ok, hstepF, h2]
    refine ⟨?_, fun j => ?_, fun j => ?_, ?_⟩ <;> trivial
  · simp only [splitFaceUpd, getEd, h1, estBind_ok]
    cases hgi : hei.face with
    | none =>
      simp only [faceUpdStep, estBind_ok, h2]
      cases hgt : het.face with
      | none => refine ⟨?_, fun j => ?_, fun j => ?_, ?_⟩ <;> trivial
      | some g2 =>
        simp only [faceUpdStep]
        obtain ⟨fc2, hfc2⟩ := Option.isSome_iff_exists.mp (hft g2 hgt)
        obtain ⟨ho, hor, htw, _, hv, _, _⟩ :=
          faceAddEdge_fresh g2 net st hnetr fc2 h4 hnetf hfc2
        rw [estBind_of_ok _ () _ ho]
        exact ⟨rfl, hor, htw, hv⟩
    | some g =>
      simp only [faceUpdStep]
      obtain ⟨fc, hfc⟩ := Option.isSome_iff_exists.mp (hfi g hgi)
      obtain ⟨ho1, hor1, htw1, hfc1, hv1, hse1, hsf1⟩ :=
        faceAddEdge_fresh g ne st hner fc h3 hnef hfc
      obtain ⟨threc, hthrec⟩ := Option.isSome_iff_exists.mp
        (by rw [hse1 t, h2]; rfl)
      have hthf : threc.face = het.face := by
        have := hfc1 t htne
        rw [eFace, eFace, hthrec, h2] at this
        simpa using this
      rw [estBind_of_ok _ () _ ho1]
      simp only [hthrec, estBind_ok, hthf]
      cases hgt : het.face with
      | none =>
        simp only [faceUpdStep, estBind_ok]
        exact ⟨trivial, hor1, htw1, hv1⟩
      | some g2 =>
        simp only [faceUpdStep]
        obtain ⟨netrec, hnetrec⟩ := Option.isSome_iff_exists.mp
          (by rw [hse1 net, h4]; rfl)
        have hnetfq : netrec.face = none := by
          have := hfc1 net hnetne
          rw [eFace, eFace, hnetrec, h4] at this
          simp only [Option.map_some', Option.some_inj] at this
          rw [this, hnetf]
        have hg2 : (getF (faceAddEdge g ne st).2 g2).isSome = true := by
          rw [hsf1 g2]
          exact hft g2 hgt
        obtain ⟨fc2, hfc2⟩ := Option.isSome_iff_exists.mp hg2
        obtain ⟨ho2, hor2, htw2, _, hv2, _, _⟩ :=
          faceAddEdge_fresh g2 net (faceAddEdge g ne st).2 netrec fc2 hnetrec
            hnetfq hfc2
        rw [estBind_of_ok _ () _ ho2]
        refine ⟨rfl, fun j => ?_, fun j => ?_, ?_⟩
        · rw [hor2 j, hor1 j]
        · rw [htw2 j, htw1 j]
        · rw [hv2, hv1]

/-! ### Symbolic execution of `HalfEdge.split` -/

theorem insV_fst (st : DState) (v : Vtx) : (insV st v).1 = st.nextVIdx := rfl

theorem faces_insV (st : DState) (v : Vtx) : (insV st v).2.faces = st.faces := rfl

theorem faces_insE (st : DState) (h : HRec) : (insE st h).2.faces = st.faces := rfl

theorem blankHE_origin (o tw : Option Nat) : (blankHE o tw).origin = o := rfl

theorem blankHE_twin (o tw : Option Nat) : (blankHE o tw).twin = tw := rfl

theorem blankHE_face (o tw : Option Nat) : (blankHE o tw).face = none := rfl

theorem getE_insE_ne (st : DState) (h : HRec) (j : Nat)
    (hne : ¬ st.nextEIdx = j) : getE (insE st h).2 j = getE st j := by
  rw [getE_insE]
  cases hx : getE st j <;> simp [hx, hne]

theorem eOrigin_updE_ne (st : DState) (k j : Nat) (g : HRec → HRec)
    (h : j ≠ k) : eOrigin (updE st k g) j = eOrigin st j := by
  unfold eOrigin
  rw [getE_updE_ne st k j g h]

theorem getF_eq_of_faces (st1 st2 : DState) (j : Nat)
    (h : st1.faces = st2.faces) : getF st1 j = getF st2 j := by
  unfold getF
  rw [h]

/-- Full symbolic run of `HalfEdge.split` at a fresh location on a
well-formed mutual edge pair: the call succeeds, returns the fresh
vertex/edge indices, rewires exactly the twin's origin, creates the new
mutually referencing pair from the new vertex to the old end vertex, and
leaves every other origin and twin reference in place. -/
theorem split_run (st : DState) (i t v1 v2 : Nat) (he th : HRec) (w1 w2 : Vtx)
    (p : Pt) (fu : Bool)
    (hbound : boundedB st = true)
    (hee : getE st i = some he) (hho : he.origin = some v1)
    (htw : he.twin = some t) (hth : getE st t = some th)
    (hto : th.origin = some v2) (htb : th.twin = some i)
    (hv1 : getV st v1 = some w1) (hv2 : getV st v2 = some w2)
    (hit : i ≠ t) (hv12 : v1 ≠ v2)
    (hfi : ∀ g, he.face = some g → (getF st g).isSome = true)
    (hft : ∀ g, th.face = some g → (getF st g).isSome = true) :
    (splitHE i (Sum.inl p) fu st).1 = Except.ok (st.nextVIdx, st.nextEIdx) ∧
    eOrigin (splitHE i (Sum.inl p) fu st).2 t = some (some st.nextVIdx) ∧
    (∀ j, j ≠ t → j ≠ st.nextEIdx → j ≠ st.nextEIdx + 1 →
      eOrigin (splitHE i (Sum.inl p) fu st).2 j = eOrigin st j) ∧
    (∀ j, j ≠ st.nextEIdx → j ≠ st.nextEIdx + 1 →
      eTwin (splitHE i (Sum.inl p) fu st).2 j = eTwin st j) ∧
    eOrigin (splitHE i (Sum.inl p) fu st).2 st.nextEIdx =
      some (some st.nextVIdx) ∧
    eTwin (splitHE i (Sum.inl p) fu st).2 st.nextEIdx =
      some (some (st.nextEIdx + 1)) ∧
    eOrigin (splitHE i (Sum.inl p) fu st).2 (st.nextEIdx + 1) = some (some v2) ∧
    eTwin (splitHE i (Sum.inl p) fu st).2 (st.nextEIdx + 1) =
      some (some st.nextEIdx) ∧
    locOf (splitHE i (Sum.inl p) fu st).2 st.nextVIdx = some p := by
  have hb := hbound
  unfold boundedB at hb
  simp only [Bool.and_eq_true] at hb
  obtain ⟨⟨hVb, hEb⟩, hFb⟩ := hb
  have hiE : i < st.nextEIdx := alook_some_bounded _ _ _ _ hEb hee
  have htE : t < st.nextEIdx := alook_some_bounded _ _ _ _ hEb hth
  have hv1V : v1 < st.nextVIdx := alook_some_bounded _ _ _ _ hVb hv1
  have hv2V : v2 < st.nextVIdx := alook_some_bounded _ _ _ _ hVb hv2
  have hnoneV : getV st st.nextVIdx = none :=
    alook_of_bounded _ _ _ hVb (Nat.le_refl _)
  have hnoneE1 : getE st st.nextEIdx = none :=
    alook_of_bounded _ _ _ hEb (Nat.le_refl _)
  have hnoneE2 : getE st (st.nextEIdx + 1) = none :=
    alook_of_bounded _ _ _ hEb (by omega)
  have hine : ¬ i = st.nextEIdx := by omega
  have hine2 : ¬ i = st.nextEIdx + 1 := by omega
  have htnee : ¬ t = st.nextEIdx := by omega
  have htne2 : ¬ t = st.nextEIdx + 1 := by omega
  have hnene2 : ¬ st.nextEIdx = st.nextEIdx + 1 := by omega
  have hnet : ¬ st.nextEIdx = t := by omega
  have hneti : ¬ st.nextEIdx = i := by omega
  have hne2t : ¬ st.nextEIdx + 1 = t := by omega
  have hne2i : ¬ st.nextEIdx + 1 = i := by omega
  have hv1nv : ¬ v1 = st.nextVIdx := by omega
  have hv2nv : ¬ v2 = st.nextVIdx := by omega
  have hnvv2 : ¬ st.nextVIdx = v2 := by omega
  have hti : ¬ t = i := fun hq => hit hq.symm
  have hv12' : ¬ v1 = v2 := hv12
  -- the fresh vertex
  obtain ⟨stV, hstV⟩ : ∃ s, (insV st { loc := p, halfEdges := [] }).2 = s :=
    ⟨_, rfl⟩
  have hV_nE : stV.nextEIdx = st.nextEIdx := by
    rw [← hstV]
    rfl
  have hV_E : ∀ j, getE stV j = getE st j := fun j => by rw [← hstV]; rfl
  have hV_F : ∀ g, getF stV g = getF st g := fun g => by rw [← hstV]; rfl
  have hV_nv : getV stV st.nextVIdx = some { loc := p, halfEdges := [] } := by
    rw [← hstV, getV_insV, hnoneV]
    simp
  have hV_v1 : getV stV v1 = some w1 := by
    rw [← hstV, getV_insV, hv1]
  have hV_v2 : getV stV v2 = some w2 := by
    rw [← hstV, getV_insV, hv2]
  -- the two inserted half-edge records
  obtain ⟨stE1, hstE1⟩ : ∃ s,
      (insE stV (blankHE (some st.nextVIdx) (some (st.nextEIdx + 1)))).2 = s :=
    ⟨_, rfl⟩
  have hE1_nE : stE1.nextEIdx = st.nextEIdx + 1 := by
    rw [← hstE1]
    simp [insE, hV_nE]
  have hE1_V : ∀ u, getV stE1 u = getV stV u := fun u => by rw [← hstE1]; rfl
  have hE1_F : ∀ g, getF stE1 g = getF st g := fun g => by
    rw [← hstE1, getF_insE]
    exact hV_F g
  have hE1_i : getE stE1 i = some he := by
    rw [← hstE1, getE_insE, hV_E, hee]
  have hE1_t : getE stE1 t = some th := by
    rw [← hstE1, getE_insE, hV_E, hth]
  have hE1_ne : getE stE1 st.nextEIdx =
      some (blankHE (some st.nextVIdx) (some (st.nextEIdx + 1))) := by
    rw [← hstE1, getE_insE, hV_E, hnoneE1]
    simp [hV_nE]
  have hE1_net : getE stE1 (st.nextEIdx + 1) = none := by
    rw [← hstE1, getE_insE, hV_E, hnoneE2]
    simp [hV_nE, hnene2]
  obtain ⟨stE2, hstE2⟩ : ∃ s,
      (insE stE1 (blankHE (some v2) (some st.nextEIdx))).2 = s := ⟨_, rfl⟩
  have hE2_V : ∀ u, getV stE2 u = getV stV u := fun u => by
    rw [← hstE2, getV_insE]
    exact hE1_V u
  have hE2_F : ∀ g, getF stE2 g = getF st g := fun g => by
    rw [← hstE2, getF_insE]
    exact hE1_F g
  have hE2_i : getE stE2 i = some he := by
    rw [← hstE2, getE_insE_ne, hE1_i]
    rw [hE1_nE]
    omega
  have hE2_t : getE stE2 t = some th := by
    rw [← hstE2, getE_insE_ne, hE1_t]
    rw [hE1_nE]
    omega
  have hE2_ne : getE stE2 st.nextEIdx =
      some (blankHE (some st.nextVIdx) (some (st.nextEIdx + 1))) := by
    rw [← hstE2, getE_insE_ne, hE1_ne]
    rw [hE1_nE]
    omega
  have hE2_net : getE stE2 (st.nextEIdx + 1) =
      some (blankHE (some v2) (some st.nextEIdx)) := by
    rw [← hstE2, getE_insE, hE1_net]
    simp [hE1_nE]
  -- the factory registrations
  obtain ⟨stR1, hstR1⟩ : ∃ s, updV stE2 st.nextVIdx (regF st.nextEIdx) = s :=
    ⟨_, rfl⟩
  have hR1_E : ∀ j, getE stR1 j = getE stE2 j := fun j => by rw [← hstR1]; rfl
  have hR1_F : ∀ g, getF stR1 g = getF st g := fun g => by
    rw [← hstR1, getF_updV]
    exact hE2_F g
  have hR1_nv : getV stR1 st.nextVIdx =
      some { loc := p, halfEdges := [st.nextEIdx] } := by
    rw [← hstR1, getV_updV]
    simp [hE2_V, hV_nv, regF]
  have hR1_v1 : getV stR1 v1 = some w1 := by
    rw [← hstR1, getV_updV]
    simp [hv1nv, hE2_V, hV_v1]
  have hR1_v2 : getV stR1 v2 = some w2 := by
    rw [← hstR1, getV_updV]
    simp [hv2nv, hE2_V, hV_v2]
  obtain ⟨stR2, hstR2⟩ : ∃ s, updV stR1 v2 (regF (st.nextEIdx + 1)) = s :=
    ⟨_, rfl⟩
  have hR2_E : ∀ j, getE stR2 j = getE stE2 j := fun j => by
    rw [← hstR2, getE_updV]
    exact hR1_E j
  have hR2_F : ∀ g, getF stR2 g = getF st g := fun g => by
    rw [← hstR2, getF_updV]
    exact hR1_F g
  have hR2_nv : getV stR2 st.nextVIdx =
      some { loc := p, halfEdges := [st.nextEIdx] } := by
    rw [← hstR2, getV_updV]
    simp [hnvv2, hR1_nv]
  have hR2_v1 : getV stR2 v1 = some w1 := by
    rw [← hstR2, getV_updV]
    simp [hv12', hR1_v1]
  have hR2_v2 : getV stR2 v2 = some (regF (st.nextEIdx + 1) w2) := by
    rw [← hstR2, getV_updV]
    simp [hR1_v2]
  have hR2_ne : getE stR2 st.nextEIdx =
      some (blankHE (some st.nextVIdx) (some (st.nextEIdx + 1))) := by
    rw [hR2_E]
    exact hE2_ne
  -- the factory call as one equation
  have hNE : newEdgeF st.nextVIdx v2 none none stV =
      (Except.ok st.nextEIdx, stR2) := by
    simp only [newEdgeF, hV_nv, hV_v2, hV_nE, hstE1, hstE2, registerHE,
      hE2_V, hR1_v2, hstR1, hstR2, estBind_ok]
  -- the twin-origin rewire
  obtain ⟨stT, hstT⟩ : ∃ s,
      updE stR2 t (fun h => { h with origin := some st.nextVIdx }) = s :=
    ⟨_, rfl⟩
  have hT_i : getE stT i = some he := by
    rw [← hstT, getE_updE_ne _ _ _ _ hit, hR2_E]
    exact hE2_i
  have hT_t : getE stT t = some { th with origin := some st.nextVIdx } := by
    rw [← hstT, getE_updE]
    simp [hR2_E, hE2_t]
  have hT_ne : getE stT st.nextEIdx =
      some (blankHE (some st.nextVIdx) (some (st.nextEIdx + 1))) := by
    rw [← hstT, getE_updE_ne _ _ _ _ hnet, hR2_E]
    exact hE2_ne
  have hT_net : getE stT (st.nextEIdx + 1) =
      some (blankHE (some v2) (some st.nextEIdx)) := by
    rw [← hstT, getE_updE_ne _ _ _ _ hne2t, hR2_E]
    exact hE2_net
  have hT_V : ∀ u, getV stT u = getV stR2 u := fun u => by rw [← hstT]; rfl
  have hT_F : ∀ g, getF stT g = getF st g := fun g => by
    rw [← hstT, getF_updE]
    exact hR2_F g
  have hT_v2 : getV stT v2 = some (regF (st.nextEIdx + 1) w2) := by
    rw [hT_V]
    exact hR2_v2
  -- the five incidence-set updates
  obtain ⟨stU1, hstU1⟩ : ∃ s, updV stT v2 (unregF i) = s := ⟨_, rfl⟩
  obtain ⟨stU2, hstU2⟩ : ∃ s, updV stU1 st.nextVIdx (regF i) = s := ⟨_, rfl⟩
  obtain ⟨stU3, hstU3⟩ : ∃ s, updV stU2 st.nextVIdx (regF t) = s := ⟨_, rfl⟩
  obtain ⟨stU4, hstU4⟩ : ∃ s, updV stU3 v2 (unregF t) = s := ⟨_, rfl⟩
  obtain ⟨stU5, hstU5⟩ : ∃ s, updV stU4 v2 (regF (st.nextEIdx + 1)) = s :=
    ⟨_, rfl⟩
  have hU1_nv : getV stU1 st.nextVIdx =
      some { loc := p, halfEdges := [st.nextEIdx] } := by
    rw [← hstU1, getV_updV]
    simp [hnvv2, hT_V, hR2_nv]
  have hU1_v1 : getV stU1 v1 = some w1 := by
    rw [← hstU1, getV_updV]
    simp [hv12', hT_V, hR2_v1]
  have hU1_v2 : getV stU1 v2 = some (unregF i (regF (st.nextEIdx + 1) w2)) := by
    rw [← hstU1, getV_updV]
    simp [hT_v2]
  have hU2_nv : getV stU2 st.nextVIdx =
      some { loc := p, halfEdges := [st.nextEIdx, i] } := by
    rw [← hstU2, getV_updV]
    simp [hU1_nv, regF, hine]
  have hU2_v1 : getV stU2 v1 = some w1 := by
    rw [← hstU2, getV_updV]
    simp [hv1nv, hU1_v1]
  have hU2_v2 : getV stU2 v2 =
      some (unregF i (regF (st.nextEIdx + 1) w2)) := by
    rw [← hstU2, getV_updV]
    simp [hv2nv, hU1_v2]
  have hU3_nv : getV stU3 st.nextVIdx =
      some { loc := p, halfEdges := [st.nextEIdx, i, t] } := by
    rw [← hstU3, getV_updV]
    simp [hU2_nv, regF, htnee, hti]
  have hU3_v1 : getV stU3 v1 = some w1 := by
    rw [← hstU3, getV_updV]
    simp [hv1nv, hU2_v1]
  have hU3_v2 : getV stU3 v2 =
      some (unregF i (regF (st.nextEIdx + 1) w2)) := by
    rw [← hstU3, getV_updV]
    simp [hv2nv, hU2_v2]
  have hU4_nv : getV stU4 st.nextVIdx =
      some { loc := p, halfEdges := [st.nextEIdx, i, t] } := by
    rw [← hstU4, getV_updV]
    simp [hnvv2, hU3_nv]
  have hU4_v1 : getV stU4 v1 = some w1 := by
    rw [← hstU4, getV_updV]
    simp [hv12', hU3_v1]
  have hU4_v2 : getV stU4 v2 =
      some (unregF t (unregF i (regF (st.nextEIdx + 1) w2))) := by
    rw [← hstU4, getV_updV]
    simp [hU3_v2]
  have hU5_nv : getV stU5 st.nextVIdx =
      some { loc := p, halfEdges := [st.nextEIdx, i, t] } := by
    rw [← hstU5, getV_updV]
    simp [hnvv2, hU4_nv]
  have hU5_v1 : getV stU5 v1 = some w1 := by
    rw [← hstU5, getV_updV]
    simp [hv12', hU4_v1]
  have hU5_E : ∀ j, getE stU5 j = getE stT j := fun j => by
    rw [← hstU5, ← hstU4, ← hstU3, ← hstU2, ← hstU1]
    rfl
  have hU5_F : ∀ g, getF stU5 g = getF st g := fun g => by
    rw [← hstU5, getF_updV, ← hstU4, getF_updV, ← hstU3, getF_updV,
        ← hstU2, getF_updV, ← hstU1, getF_updV]
    exact hT_F g
  -- the two forced length refreshes
  have hArr_i : toArrayE stU5 i = Except.ok (w1.loc, p) := by
    simp only [toArrayE, hU5_E, hT_i, hho, htw, hT_t, hU5_v1, hU5_nv]
  have hLen1 : getLengthSq i true stU5 =
      (Except.ok (dist2 w1.loc p),
       updE stU5 i (fun h => { h with lengthSq := some (dist2 w1.loc p) })) := by
    have h := getLengthSq_force i stU5 he (w1.loc, p)
      (by rw [hU5_E]; exact hT_i) hArr_i
    simpa using h
  obtain ⟨stL1, hstL1⟩ : ∃ s,
      updE stU5 i (fun h => { h with lengthSq := some (dist2 w1.loc p) }) = s :=
    ⟨_, rfl⟩
  have hL1_i : getE stL1 i =
      some { he with lengthSq := some (dist2 w1.loc p) } := by
    rw [← hstL1, getE_updE]
    simp [hU5_E, hT_i]
  have hL1_t : getE stL1 t = some { th with origin := some st.nextVIdx } := by
    rw [← hstL1, getE_updE_ne _ _ _ _ hti, hU5_E]
    exact hT_t
  have hL1_ne : getE stL1 st.nextEIdx =
      some (blankHE (some st.nextVIdx) (some (st.nextEIdx + 1))) := by
    rw [← hstL1, getE_updE_ne _ _ _ _ hneti, hU5_E]
    exact hT_ne
  have hL1_net : getE stL1 (st.nextEIdx + 1) =
      some (blankHE (some v2) (some st.nextEIdx)) := by
    rw [← hstL1, getE_updE_ne _ _ _ _ hne2i, hU5_E]
    exact hT_net
  have hL1_V : ∀ u, getV stL1 u = getV stU5 u := fun u => by rw [← hstL1]; rfl
  have hArr_t : toArrayE stL1 t = Except.ok (p, w1.loc) := by
    simp only [toArrayE, hL1_t, htb, hL1_i, hho, hL1_V, hU5_nv, hU5_v1]
  have hLen2 : getLengthSq t true stL1 =
      (Except.ok (dist2 p w1.loc),
       updE stL1 t (fun h => { h with lengthSq := some (dist2 p w1.loc) })) := by
    have h := getLengthSq_force t stL1 { th with origin := some st.nextVIdx }
      (p, w1.loc) hL1_t hArr_t
    simpa using h
  obtain ⟨stL2, hstL2⟩ : ∃ s,
      updE stL1 t (fun h => { h with lengthSq := some (dist2 p w1.loc) }) = s :=
    ⟨_, rfl⟩
  have hL2_i : getE stL2 i =
      some { he with lengthSq := some (dist2 w1.loc p) } := by
    rw [← hstL2, getE_updE_ne _ _ _ _ hit]
    exact hL1_i
  have hL2_t : getE stL2 t =
      some { th with origin := some st.nextVIdx,
                     lengthSq := some (dist2 p w1.loc) } := by
    rw [← hstL2, getE_updE]
    simp [hL1_t]
  have hL2_ne : getE stL2 st.nextEIdx =
      some (blankHE (some st.nextVIdx) (some (st.nextEIdx + 1))) := by
    rw [← hstL2, getE_updE_ne _ _ _ _ hnet]
    exact hL1_ne
  have hL2_net : getE stL2 (st.nextEIdx + 1) =
      some (blankHE (some v2) (some st.nextEIdx)) := by
    rw [← hstL2, getE_updE_ne _ _ _ _ hne2t]
    exact hL1_net
  have hL2_V : ∀ u, getV stL2 u = getV stU5 u := fun u => by
    rw [← hstL2, getV_updE]
    exact hL1_V u
  have hL2_F : ∀ g, getF stL2 g = getF st g := fun g => by
    rw [← hstL2, getF_updE, ← hstL1, getF_updE]
    exact hU5_F g
  have hL2_verts : stL2.verts = stU5.verts := by
    rw [← hstL2, verts_updE, ← hstL1, verts_updE]
  -- the pointer splices, by their frames
  have hfr3 := addNextHE_frame st.nextEIdx he.nxt stL2
    (blankHE (some st.nextVIdx) (some (st.nextEIdx + 1))) hL2_ne
  obtain ⟨st3, h3⟩ : ∃ s,
      addNextHE st.nextEIdx he.nxt true stL2 = (Except.ok (), s) :=
    ⟨_, by rw [← hfr3.1]⟩
  have h3s : (addNextHE st.nextEIdx he.nxt true stL2).2 = st3 := by rw [h3]
  have h3_or : ∀ j, eOrigin st3 j = eOrigin stL2 j :=
    fun j => h3s ▸ hfr3.2.1 j
  have h3_tw : ∀ j, eTwin st3 j = eTwin stL2 j :=
    fun j => h3s ▸ hfr3.2.2.1 j
  have h3_fc : ∀ j, eFace st3 j = eFace stL2 j :=
    fun j => h3s ▸ hfr3.2.2.2.1 j
  have h3_v : st3.verts = stL2.verts := h3s ▸ hfr3.2.2.2.2.1
  have h3_f : st3.faces = stL2.faces := h3s ▸ hfr3.2.2.2.2.2.1
  have h3_s : ∀ j, (getE st3 j).isSome = (getE stL2 j).isSome :=
    fun j => h3s ▸ hfr3.2.2.2.2.2.2 j
  obtain ⟨th3, hth3⟩ : ∃ a, getE st3 t = some a :=
    Option.isSome_iff_exists.mp (by rw [h3_s t, hL2_t]; rfl)
  obtain ⟨ne3, hne3⟩ : ∃ a, getE st3 (st.nextEIdx + 1) = some a :=
    Option.isSome_iff_exists.mp (by rw [h3_s, hL2_net]; rfl)
  have hfr4 := addPrevHE_frame (st.nextEIdx + 1) th3.prv st3 ne3 hne3
  obtain ⟨st4, h4⟩ : ∃ s,
      addPrevHE (st.nextEIdx + 1) th3.prv true st3 = (Except.ok (), s) :=
    ⟨_, by rw [← hfr4.1]⟩
  have h4s : (addPrevHE (st.nextEIdx + 1) th3.prv true st3).2 = st4 := by
    rw [h4]
  have h4_or : ∀ j, eOrigin st4 j = eOrigin st3 j :=
    fun j => h4s ▸ hfr4.2.1 j
  have h4_tw : ∀ j, eTwin st4 j = eTwin st3 j :=
    fun j => h4s ▸ hfr4.2.2.1 j
  have h4_fc : ∀ j, eFace st4 j = eFace st3 j :=
    fun j => h4s ▸ hfr4.2.2.2.1 j
  have h4_v : st4.verts = st3.verts := h4s ▸ hfr4.2.2.2.2.1
  have h4_f : st4.faces = st3.faces := h4s ▸ hfr4.2.2.2.2.2.1
  have h4_s : ∀ j, (getE st4 j).isSome = (getE st3 j).isSome :=
    fun j => h4s ▸ hfr4.2.2.2.2.2.2 j
  obtain ⟨i4, hi4⟩ : ∃ a, getE st4 i = some a :=
    Option.isSome_iff_exists.mp (by rw [h4_s i, h3_s i, hL2_i]; rfl)
  have hfr5 := addNextHE_frame i (some st.nextEIdx) st4 i4 hi4
  obtain ⟨st5, h5⟩ : ∃ s,
      addNextHE i (some st.nextEIdx) true st4 = (Except.ok (), s) :=
    ⟨_, by rw [← hfr5.1]⟩
  have h5s : (addNextHE i (some st.nextEIdx) true st4).2 = st5 := by rw [h5]
  have h5_or : ∀ j, eOrigin st5 j = eOrigin st4 j :=
    fun j => h5s ▸ hfr5.2.1 j
  have h5_tw : ∀ j, eTwin st5 j = eTwin st4 j :=
    fun j => h5s ▸ hfr5.2.2.1 j
  have h5_fc : ∀ j, eFace st5 j = eFace st4 j :=
    fun j => h5s ▸ hfr5.2.2.2.1 j
  have h5_v : st5.verts = st4.verts := h5s ▸ hfr5.2.2.2.2.1
  have h5_f : st5.faces = st4.faces := h5s ▸ hfr5.2.2.2.2.2.1
  have h5_s : ∀ j, (getE st5 j).isSome = (getE st4 j).isSome :=
    fun j => h5s ▸ hfr5.2.2.2.2.2.2 j
  obtain ⟨net5, hnet5⟩ : ∃ a, getE st5 (st.nextEIdx + 1) = some a :=
    Option.isSome_iff_exists.mp
      (by rw [h5_s, h4_s, h3_s, hL2_net]; rfl)
  have hfr6 := addNextHE_frame (st.nextEIdx + 1) (some t) st5 net5 hnet5
  obtain ⟨st6, h6⟩ : ∃ s,
      addNextHE (st.nextEIdx + 1) (some t) true st5 = (Except.ok (), s) :=
    ⟨_, by rw [← hfr6.1]⟩
  have h6s : (addNextHE (st.nextEIdx + 1) (some t) true st5).2 = st6 := by
    rw [h6]
  have h6_or : ∀ j, eOrigin st6 j = eOrigin st5 j :=
    fun j => h6s ▸ hfr6.2.1 j
  have h6_tw : ∀ j, eTwin st6 j = eTwin st5 j :=
    fun j => h6s ▸ hfr6.2.2.1 j
  have h6_fc : ∀ j, eFace st6 j = eFace st5 j :=
    fun j => h6s ▸ hfr6.2.2.2.1 j
  have h6_v : st6.verts = st5.verts := h6s ▸ hfr6.2.2.2.2.1
  have h6_f : st6.faces = st5.faces := h6s ▸ hfr6.2.2.2.2.2.1
  have h6_s : ∀ j, (getE st6 j).isSome = (getE st5 j).isSome :=
    fun j => h6s ▸ hfr6.2.2.2.2.2.2 j
  -- composed transports back to the explicit state
  have hC_or : ∀ j, eOrigin st6 j = eOrigin stL2 j := fun j => by
    rw [h6_or, h5_or, h4_or, h3_or]
  have hC_tw : ∀ j, eTwin st6 j = eTwin stL2 j := fun j => by
    rw [h6_tw, h5_tw, h4_tw, h3_tw]
  have hC_fc : ∀ j, eFace st6 j = eFace stL2 j := fun j => by
    rw [h6_fc, h5_fc, h4_fc, h3_fc]
  have hC_v : st6.verts = stL2.verts := by rw [h6_v, h5_v, h4_v, h3_v]
  have hC_f : st6.faces = stL2.faces := by rw [h6_f, h5_f, h4_f, h3_f]
  have hC_s : ∀ j, (getE st6 j).isSome = (getE stL2 j).isSome := fun j => by
    rw [h6_s, h5_s, h4_s, h3_s]
  have hL2_faces : stL2.faces = st.faces := by
    rw [← hstL2, faces_updE, ← hstL1, faces_updE, ← hstU5, faces_updV,
        ← hstU4, faces_updV, ← hstU3, faces_updV, ← hstU2, faces_updV,
        ← hstU1, faces_updV, ← hstT, faces_updE, ← hstR2, faces_updV,
        ← hstR1, faces_updV, ← hstE2, faces_insE, ← hstE1, faces_insE,
        ← hstV, faces_insV]
  have hC_faces : st6.faces = st.faces := by rw [hC_f, hL2_faces]
  -- the records the face-update tail sees
  obtain ⟨i6, hi6⟩ : ∃ a, getE st6 i = some a :=
    Option.isSome_iff_exists.mp (by rw [hC_s i, hL2_i]; rfl)
  obtain ⟨t6, ht6⟩ : ∃ a, getE st6 t = some a :=
    Option.isSome_iff_exists.mp (by rw [hC_s t, hL2_t]; rfl)
  obtain ⟨ne6, hne6⟩ : ∃ a, getE st6 st.nextEIdx = some a :=
    Option.isSome_iff_exists.mp (by rw [hC_s, hL2_ne]; rfl)
  obtain ⟨net6, hnet6⟩ : ∃ a, getE st6 (st.nextEIdx + 1) = some a :=
    Option.isSome_iff_exists.mp (by rw [hC_s, hL2_net]; rfl)
  have hi6f : i6.face = he.face := by
    have hq := hC_fc i
    rw [eFace, eFace, hi6, hL2_i] at hq
    simpa using hq
  have ht6f : t6.face = th.face := by
    have hq := hC_fc t
    rw [eFace, eFace, ht6, hL2_t] at hq
    simpa using hq
  have hne6f : ne6.face = none := by
    have hq := hC_fc st.nextEIdx
    rw [eFace, eFace, hne6, hL2_ne] at hq
    simpa [blankHE] using hq
  have hnet6f : net6.face = none := by
    have hq := hC_fc (st.nextEIdx + 1)
    rw [eFace, eFace, hnet6, hL2_net] at hq
    simpa [blankHE] using hq
  have hspec := splitFaceUpd_spec i t st.nextEIdx (st.nextEIdx + 1) fu st6
    i6 t6 ne6 net6 hi6 ht6 hne6 hne6f hnet6 hnet6f
    (fun hq => htnee hq) (fun hq => hnene2 hq.symm)
    (fun g hg => by
      rw [getF_eq_of_faces _ _ _ hC_faces]
      exact hfi g (hi6f ▸ hg))
    (fun g hg => by
      rw [getF_eq_of_faces _ _ _ hC_faces]
      exact hft g (ht6f ▸ hg))
  -- the whole call as one equation
  have hEQ : splitHE i (Sum.inl p) fu st =
      estBind (splitFaceUpd i t st.nextEIdx (st.nextEIdx + 1) fu st6)
        (fun _ s => (Except.ok (st.nextVIdx, st.nextEIdx), s)) := by
    simp only [splitHE, getEd, unopt, estBind_ok, hee, htw, hth, hto,
      newVertexF, insV_fst, hstV, hNE, hR2_ne, blankHE_twin, hstT,
      unregisterHE, registerHE, hT_v2, hstU1, hU1_nv, hstU2, hU2_nv, hstU3,
      hU3_v2, hstU4, hU4_v2, hstU5, hLen1, hstL1, hLen2, hstL2, hL2_i,
      h3, hth3, h4, h5, h6]
  have hkey : splitHE i (Sum.inl p) fu st =
      (Except.ok (st.nextVIdx, st.nextEIdx),
       (splitFaceUpd i t st.nextEIdx (st.nextEIdx + 1) fu st6).2) := by
    rw [hEQ, estBind_of_ok _ () _ hspec.1]
  obtain ⟨_, hF_or, hF_tw, hF_v⟩ := hspec
  rw [hkey]
  refine ⟨rfl, ?_, ?_, ?_, ?_, ?_, ?_, ?_, ?_⟩
  · rw [hF_or t, hC_or t, eOrigin, hL2_t]
    simp
  · intro j hjt hjne hjnet
    have hne_j : ¬ st.nextEIdx = j := fun hq => hjne hq.symm
    have hne2_j : ¬ stE1.nextEIdx = j := by
      rw [hE1_nE]
      exact fun hq => hjnet hq.symm
    have hneV_j : ¬ stV.nextEIdx = j := by
      rw [hV_nE]
      exact hne_j
    rw [hF_or j, hC_or j, ← hstL2,
        eOrigin_updE_of stL1 t j
          (fun h => { h with lengthSq := some (dist2 p w1.loc) })
          (fun h => rfl),
        ← hstL1,
        eOrigin_updE_of stU5 i j
          (fun h => { h with lengthSq := some (dist2 w1.loc p) })
          (fun h => rfl),
        ← hstU5, eOrigin_updV, ← hstU4, eOrigin_updV, ← hstU3, eOrigin_updV,
        ← hstU2, eOrigin_updV, ← hstU1, eOrigin_updV, ← hstT,
        eOrigin_updE_ne _ _ _ _ hjt, ← hstR2, eOrigin_updV, ← hstR1,
        eOrigin_updV]
    unfold eOrigin
    rw [← hstE2, getE_insE_ne stE1 _ j hne2_j, ← hstE1,
        getE_insE_ne stV _ j hneV_j, hV_E]
  · intro j hjne hjnet
    have hne_j : ¬ st.nextEIdx = j := fun hq => hjne hq.symm
    have hne2_j : ¬ stE1.nextEIdx = j := by
      rw [hE1_nE]
      exact fun hq => hjnet hq.symm
    have hneV_j : ¬ stV.nextEIdx = j := by
      rw [hV_nE]
      exact hne_j
    rw [hF_tw j, hC_tw j, ← hstL2,
        eTwin_updE_of stL1 t j
          (fun h => { h with lengthSq := some (dist2 p w1.loc) })
          (fun h => rfl),
        ← hstL1,
        eTwin_updE_of stU5 i j
          (fun h => { h with lengthSq := some (dist2 w1.loc p) })
          (fun h => rfl),
        ← hstU5, eTwin_updV, ← hstU4, eTwin_updV, ← hstU3, eTwin_updV,
        ← hstU2, eTwin_updV, ← hstU1, eTwin_updV, ← hstT,
        eTwin_updE_of stR2 t j
          (fun h => { h with origin := some st.nextVIdx })
          (fun h => rfl),
        ← hstR2, eTwin_updV, ← hstR1, eTwin_updV]
    unfold eTwin
    rw [← hstE2, getE_insE_ne stE1 _ j hne2_j, ← hstE1,
        getE_insE_ne stV _ j hneV_j, hV_E]
  · rw [hF_or st.nextEIdx, hC_or st.nextEIdx, eOrigin, hL2_ne]
    simp [blankHE]
  · rw [hF_tw st.nextEIdx, hC_tw st.nextEIdx, eTwin, hL2_ne]
    simp [blankHE]
  · rw [hF_or (st.nextEIdx + 1), hC_or (st.nextEIdx + 1), eOrigin, hL2_net]
    simp [blankHE]
  · rw [hF_tw (st.nextEIdx + 1), hC_tw (st.nextEIdx + 1), eTwin, hL2_net]
    simp [blankHE]
  · unfold locOf
    rw [getV_eq_of_verts _ stL2 _ (by rw [hF_v, hC_v]), hL2_V, hU5_nv]
    rfl

/-- C2: for every half-edge `e` (index `i`) with both endpoints set
(origin `v1`, twin `t` originating at `v2`) and every split location `p`,
`split(e, p)` leaves `e.origin` unchanged at `v1`, keeps `e.twin == t`
and makes `t`'s origin the new vertex located at `p`, and returns the
pair `(newVertex, newHalfEdge)` where the new half-edge originates at the
new vertex and its twin originates at the vertex that was `e.twin.origin`
before the call. -/
theorem C2_thm (st : DState) (i t v1 v2 : Nat) (he th : HRec) (w1 w2 : Vtx)
    (p : Pt) (fu : Bool)
    (hbound : boundedB st = true)
    (hee : getE st i = some he) (hho : he.origin = some v1)
    (htw : he.twin = some t) (hth : getE st t = some th)
    (hto : th.origin = some v2) (htb : th.twin = some i)
    (hv1 : getV st v1 = some w1) (hv2 : getV st v2 = some w2)
    (hit : i ≠ t) (hv12 : v1 ≠ v2)
    (hfi : ∀ g, he.face = some g → (getF st g).isSome = true)
    (hft : ∀ g, th.face = some g → (getF st g).isSome = true) :
    (splitHE i (Sum.inl p) fu st).1 = Except.ok (st.nextVIdx, st.nextEIdx) ∧
    eOrigin (splitHE i (Sum.inl p) fu st).2 i = some (some v1) ∧
    eTwin (splitHE i (Sum.inl p) fu st).2 i = some (some t) ∧
    eOrigin (splitHE i (Sum.inl p) fu st).2 t = some (some st.nextVIdx) ∧
    locOf (splitHE i (Sum.inl p) fu st).2 st.nextVIdx = some p ∧
    eOrigin (splitHE i (Sum.inl p) fu st).2 st.nextEIdx =
      some (some st.nextVIdx) ∧
    eTwin (splitHE i (Sum.inl p) fu st).2 st.nextEIdx =
      some (some (st.nextEIdx + 1)) ∧
    eOrigin (splitHE i (Sum.inl p) fu st).2 (st.nextEIdx + 1) =
      some (some v2) := by
  obtain ⟨h1, h2, h3, h4, h5, h6, h7, h8, h9⟩ :=
    split_run st i t v1 v2 he th w1 w2 p fu hbound hee hho htw hth hto htb
      hv1 hv2 hit hv12 hfi hft
  have hb := hbound
  unfold boundedB at hb
  simp only [Bool.and_eq_true] at hb
  have hiE : i < st.nextEIdx := alook_some_bounded _ _ _ _ hb.1.2 hee
  refine ⟨h1, ?_, ?_, h2, h9, h5, h6, h7⟩
  · rw [h3 i hit (by omega) (by omega), eOrigin, hee]
    simp [hho]
  · rw [h4 i (by omega) (by omega), eTwin, hee]
    simp [htw]

/-- C2 witness: splitting the unit edge `(0,0) -> (1,0)` of `stUnit` at
`(1/2, 0)` returns the fresh indices and produces exactly the origins
the claim describes. -/
theorem C2_thm_witness :
    (splitHE 0 (Sum.inl ((1/2 : ℚ), (0 : ℚ))) true stUnit).1 =
      Except.ok (stUnit.nextVIdx, stUnit.nextEIdx) ∧
    eOrigin (splitHE 0 (Sum.inl ((1/2 : ℚ), (0 : ℚ))) true stUnit).2 0 =
      some (some 0) ∧
    eTwin (splitHE 0 (Sum.inl ((1/2 : ℚ), (0 : ℚ))) true stUnit).2 0 =
      some (some 1) ∧
    eOrigin (splitHE 0 (Sum.inl ((1/2 : ℚ), (0 : ℚ))) true stUnit).2 1 =
      some (some stUnit.nextVIdx) ∧
    locOf (splitHE 0 (Sum.inl ((1/2 : ℚ), (0 : ℚ))) true stUnit).2
      stUnit.nextVIdx = some ((1/2 : ℚ), (0 : ℚ)) ∧
    eOrigin (splitHE 0 (Sum.inl ((1/2 : ℚ), (0 : ℚ))) true stUnit).2
      stUnit.nextEIdx = some (some stUnit.nextVIdx) ∧
    eTwin (splitHE 0 (Sum.inl ((1/2 : ℚ), (0 : ℚ))) true stUnit).2
      stUnit.nextEIdx = some (some (stUnit.nextEIdx + 1)) ∧
    eOrigin (splitHE 0 (Sum.inl ((1/2 : ℚ), (0 : ℚ))) true stUnit).2
      (stUnit.nextEIdx + 1) = some (some 1) :=
  C2_thm stUnit 0 1 0 1
    ⟨some 0, some 1, none, none, none, none, false, false⟩
    ⟨some 1, some 0, none, none, none, none, false, false⟩
    ⟨((0 : ℚ), (0 : ℚ)), [0]⟩ ⟨((1 : ℚ), (0 : ℚ)), [1]⟩
    ((1/2 : ℚ), (0 : ℚ)) true
    (by with_unfolding_all decide)
    (by with_unfolding_all rfl) rfl rfl
    (by with_unfolding_all rfl) rfl rfl
    (by with_unfolding_all rfl) (by with_unfolding_all rfl)
    (by decide) (by decide)
    (fun g hg => nomatch hg) (fun g hg => nomatch hg)

/-- The factory `newEdge` produces a mutually referencing twin pair and
touches no other twin reference. -/
theorem newEdgeF_twins (st : DState) (a b : Nat) (wa wb : Vtx)
    (hEb : (st.hedges.all fun q => q.1 < st.nextEIdx) = true)
    (hu : getV st a = some wa) (hv : getV st b = some wb) :
    eTwin (newEdgeF a b none none st).2 st.nextEIdx =
      some (some (st.nextEIdx + 1)) ∧
    eTwin (newEdgeF a b none none st).2 (st.nextEIdx + 1) =
      some (some st.nextEIdx) ∧
    eOrigin (newEdgeF a b none none st).2 st.nextEIdx = some (some a) ∧
    eOrigin (newEdgeF a b none none st).2 (st.nextEIdx + 1) = some (some b) ∧
    (∀ j, j ≠ st.nextEIdx → j ≠ st.nextEIdx + 1 →
      eTwin (newEdgeF a b none none st).2 j = eTwin st j) ∧
    (newEdgeF a b none none st).1 = Except.ok st.nextEIdx := by
  have hnE1 : alook st.hedges st.nextEIdx = none :=
    alook_of_bounded _ _ _ hEb (Nat.le_refl _)
  have hnE2 : alook st.hedges (st.nextEIdx + 1) = none :=
    alook_of_bounded _ _ _ hEb (by omega)
  have hne12 : ¬ st.nextEIdx = st.nextEIdx + 1 := by omega
  have hu2 : alook st.verts a = some wa := hu
  have hv2 : alook st.verts b = some wb := hv
  have hrun : newEdgeF a b none none st =
      (Except.ok st.nextEIdx,
       updV (updV (insE (insE st
           (blankHE (some a) (some (st.nextEIdx + 1)))).2
           (blankHE (some b) (some st.nextEIdx))).2
         a (regF st.nextEIdx)) b (regF (st.nextEIdx + 1))) := by
    by_cases hab : b = a <;>
      simp [newEdgeF, registerHE, estBind, getV, updV, insE, alook_aupd,
            hu2, hv2, hab]
  refine ⟨?_, ?_, ?_, ?_, fun j hj1 hj2 => ?_, ?_⟩ <;> rw [hrun]
  · simp [eTwin, getE, updV, insE, alook_append, alook, hnE1, blankHE]
  · simp [eTwin, getE, updV, insE, alook_append, alook, hnE1, hnE2, hne12,
          blankHE]
  · simp [eOrigin, getE, updV, insE, alook_append, alook, hnE1, blankHE]
  · simp [eOrigin, getE, updV, insE, alook_append, alook, hnE1, hnE2, hne12,
          blankHE]
  · have hj1' : ¬ st.nextEIdx = j := fun hq => hj1 hq.symm
    have hj2' : ¬ st.nextEIdx + 1 = j := fun hq => hj2 hq.symm
    cases hx : alook st.hedges j <;>
      simp [eTwin, getE, updV, insE, alook_append, alook, hx, hj1', hj2']

/-- The twin references of a store form an involution: every edge with a
twin is that twin's twin. -/
def twinInv (st : DState) : Prop :=
  ∀ j u, eTwin st j = some (some u) → eTwin st u = some (some j)

/-- C1 (amended): half-edge pairs produced by the factory `newEdge` - the
mechanism `split`, `extend` and `subdivide` use to create edges - are
mutually referencing (`e.twin.twin == e` for both halves), `split`
creates its fresh pair mutually referencing, and `split` preserves the
twin involution of the whole store.  (A `HalfEdge` constructed directly
with an explicit twin argument does not get a back reference: that is
`C1_counterexample`.) -/
theorem C1_thm (st : DState) (i t v1 v2 : Nat) (he th : HRec) (w1 w2 : Vtx)
    (p : Pt) (fu : Bool)
    (hbound : boundedB st = true)
    (hee : getE st i = some he) (hho : he.origin = some v1)
    (htw : he.twin = some t) (hth : getE st t = some th)
    (hto : th.origin = some v2) (htb : th.twin = some i)
    (hv1 : getV st v1 = some w1) (hv2 : getV st v2 = some w2)
    (hit : i ≠ t) (hv12 : v1 ≠ v2)
    (hfi : ∀ g, he.face = some g → (getF st g).isSome = true)
    (hft : ∀ g, th.face = some g → (getF st g).isSome = true) :
    (∀ (st' : DState) (a b : Nat) (wa wb : Vtx),
        boundedB st' = true → getV st' a = some wa → getV st' b = some wb →
        eTwin (newEdgeF a b none none st').2 st'.nextEIdx =
          some (some (st'.nextEIdx + 1)) ∧
        eTwin (newEdgeF a b none none st').2 (st'.nextEIdx + 1) =
          some (some st'.nextEIdx)) ∧
    eTwin (splitHE i (Sum.inl p) fu st).2 st.nextEIdx =
      some (some (st.nextEIdx + 1)) ∧
    eTwin (splitHE i (Sum.inl p) fu st).2 (st.nextEIdx + 1) =
      some (some st.nextEIdx) ∧
    (twinInv st → twinInv (splitHE i (Sum.inl p) fu st).2) := by
  obtain ⟨h1, h2, h3, h4, h5, h6, h7, h8, h9⟩ :=
    split_run st i t v1 v2 he th w1 w2 p fu hbound hee hho htw hth hto htb
      hv1 hv2 hit hv12 hfi hft
  have hb := hbound
  unfold boundedB at hb
  simp only [Bool.and_eq_true] at hb
  refine ⟨?_, h6, h8, ?_⟩
  · intro st' a b wa wb hb' hua hvb
    have hb2 := hb'
    unfold boundedB at hb2
    simp only [Bool.and_eq_true] at hb2
    exact ⟨(newEdgeF_twins st' a b wa wb hb2.1.2 hua hvb).1,
           (newEdgeF_twins st' a b wa wb hb2.1.2 hua hvb).2.1⟩
  · intro hInv j u hju
    by_cases hjne : j = st.nextEIdx
    · subst hjne
      rw [h6] at hju
      simp only [Option.some_inj] at hju
      subst hju
      exact h8
    · by_cases hjnet : j = st.nextEIdx + 1
      · subst hjnet
        rw [h8] at hju
        simp only [Option.some_inj] at hju
        subst hju
        exact h6
      · rw [h4 j hjne hjnet] at hju
        have hGu := hInv j u hju
        have hGu2 := hGu
        unfold eTwin at hGu2
        obtain ⟨rec, hrec, _⟩ := Option.map_eq_some'.mp hGu2
        have huB : u < st.nextEIdx := alook_some_bounded _ _ _ _ hb.1.2 hrec
        rw [h4 u (by omega) (by omega)]
        exact hGu

/-- C1 witness: on `stUnit` the factory clause and the split clause of
`C1_thm` hold at the concrete mutual pair, and the split of edge 0 at
`(1/2, 0)` keeps the store's twin involution. -/
theorem C1_thm_witness :
    (∀ (st' : DState) (a b : Nat) (wa wb : Vtx),
        boundedB st' = true → getV st' a = some wa → getV st' b = some wb →
        eTwin (newEdgeF a b none none st').2 st'.nextEIdx =
          some (some (st'.nextEIdx + 1)) ∧
        eTwin (newEdgeF a b none none st').2 (st'.nextEIdx + 1) =
          some (some st'.nextEIdx)) ∧
    eTwin (splitHE 0 (Sum.inl ((1/2 : ℚ), (0 : ℚ))) true stUnit).2
      stUnit.nextEIdx = some (some (stUnit.nextEIdx + 1)) ∧
    eTwin (splitHE 0 (Sum.inl ((1/2 : ℚ), (0 : ℚ))) true stUnit).2
      (stUnit.nextEIdx + 1) = some (some stUnit.nextEIdx) ∧
    (twinInv stUnit →
      twinInv (splitHE 0 (Sum.inl ((1/2 : ℚ), (0 : ℚ))) true stUnit).2) :=
  C1_thm stUnit 0 1 0 1
    ⟨some 0, some 1, none, none, none, none, false, false⟩
    ⟨some 1, some 0, none, none, none, none, false, false⟩
    ⟨((0 : ℚ), (0 : ℚ)), [0]⟩ ⟨((1 : ℚ), (0 : ℚ)), [1]⟩
    ((1/2 : ℚ), (0 : ℚ)) true
    (by with_unfolding_all decide)
    (by with_unfolding_all rfl) rfl rfl
    (by with_unfolding_all rfl) rfl rfl
    (by with_unfolding_all rfl) (by with_unfolding_all rfl)
    (by decide) (by decide)
    (fun g hg => nomatch hg) (fun g hg => nomatch hg)

/-! ### The subdivision probe (claim C7) -/

theorem segOf_eq_toArrayE (st : DState) (j : Nat) :
    segOf st j = (toArrayE st j).toOption := by
  unfold segOf toArrayE locOf
  cases h1 : getE st j with
  | none => rfl
  | some he =>
    simp only [Option.some_bind]
    cases h2 : he.origin with
    | none => rfl
    | some v1 =>
      simp only [Option.some_bind]
      cases h3 : he.twin with
      | none => rfl
      | some t =>
        simp only [Option.some_bind]
        cases h4 : getE st t with
        | none => rfl
        | some th =>
          simp only [Option.some_bind]
          cases h5 : th.origin with
          | none => rfl
          | some v2 =>
            simp only [Option.some_bind]
            cases h6 : getV st v1 with
            | none => simp [Except.toOption]
            | some a =>
              simp only [Option.map_some', Option.some_bind]
              cases h7 : getV st v2 <;> simp [Except.toOption]

/-- Midpoint-split state of the one-edge face `stC6`: the probe loop
runs over `[0, 2]`, both of which are the split halves themselves. -/
def c6mid : DState := (splitByRatio 0 (1/2) true (sortEdges 0 stC6).2).2

/-- The probe loop returns `none` (and `subdivide` then raises) exactly
when it crosses zero of the other boundary edges. -/
theorem probeLoop_none_iff (st : DState) (el : Pt × Pt) (edge newEdge : Nat)
    (es : List Nat)
    (hres : ∀ j, j ∈ es → ¬ (j = edge ∨ j = newEdge) →
      (segOf st j).isSome = true) :
    probeLoopE st el edge newEdge es = Except.ok none ↔
      probeCross st el edge newEdge es = 0 := by
  induction es with
  | nil => simp [probeLoopE, probeCross]
  | cons he rest ih =>
    have hres' : ∀ j, j ∈ rest → ¬ (j = edge ∨ j = newEdge) →
        (segOf st j).isSome = true :=
      fun j hj => hres j (List.mem_cons_of_mem _ hj)
    by_cases hskip : he = edge ∨ he = newEdge
    · have hcount : probeCross st el edge newEdge (he :: rest) =
          probeCross st el edge newEdge rest := by
        unfold probeCross
        rcases hskip with h | h <;> subst h <;> simp [List.filter_cons]
      rw [hcount]
      simp only [probeLoopE, if_pos hskip]
      exact ih hres'
    · have hseg := hres he (List.mem_cons_self _ _) hskip
      obtain ⟨s, hs⟩ := Option.isSome_iff_exists.mp hseg
      have harr : toArrayE st he = Except.ok s := by
        have h2 := segOf_eq_toArrayE st he
        rw [hs] at h2
        cases h3 : toArrayE st he <;> rw [h3] at h2 <;>
          simp [Except.toOption] at h2
        rw [h2]
      obtain ⟨hs1, hs2⟩ : ¬ he = edge ∧ ¬ he = newEdge := by
        constructor <;> intro hq <;> exact hskip (by tauto)
      cases hint : segIntersect el s with
      | none =>
        have hcount : probeCross st el edge newEdge (he :: rest) =
            probeCross st el edge newEdge rest := by
          unfold probeCross
          simp [List.filter_cons, hs1, hs2, hs, hint]
        rw [hcount]
        simp only [probeLoopE, if_neg hskip, harr, hint]
        exact ih hres'
      | some q =>
        have hcount : probeCross st el edge newEdge (he :: rest) =
            probeCross st el edge newEdge rest + 1 := by
          unfold probeCross
          simp [List.filter_cons, hs1, hs2, hs, hint]
        rw [hcount]
        simp [probeLoopE, if_neg hskip, harr, hint]

/-- When the probe loop does return a crossing, it is the *first* crossed
edge in boundary-list order, and no uniqueness check is made on the
remainder. -/
theorem probeLoop_first (st : DState) (el : Pt × Pt) (edge newEdge : Nat)
    (es : List Nat) (p : Pt) (j : Nat)
    (h : probeLoopE st el edge newEdge es = Except.ok (some (p, j))) :
    ∃ pre post, es = pre ++ j :: post ∧
      probeCross st el edge newEdge pre = 0 ∧
      ¬ (j = edge ∨ j = newEdge) ∧
      ∃ s, toArrayE st j = Except.ok s ∧ segIntersect el s = some p := by
  induction es with
  | nil => simp [probeLoopE] at h
  | cons he rest ih =>
    by_cases hskip : he = edge ∨ he = newEdge
    · simp only [probeLoopE, if_pos hskip] at h
      obtain ⟨pre, post, hsplit, hzero, hnsk, s, hts, hint⟩ := ih h
      refine ⟨he :: pre, post, by rw [hsplit]; rfl, ?_, hnsk, s, hts, hint⟩
      unfold probeCross at hzero ⊢
      rcases hskip with hq | hq <;> subst hq <;>
        simpa [List.filter_cons] using hzero
    · simp only [probeLoopE, if_neg hskip] at h
      obtain ⟨hs1, hs2⟩ : ¬ he = edge ∧ ¬ he = newEdge := by
        constructor <;> intro hq <;> exact hskip (by tauto)
      cases harr : toArrayE st he with
      | error m =>
        simp only [harr] at h
        exact absurd h (by simp)
      | ok hc =>
        simp only [harr] at h
        cases hint : segIntersect el hc with
        | some q =>
          simp only [hint, Except.ok.injEq, Option.some.injEq,
            Prod.mk.injEq] at h
          obtain ⟨hqp, hhej⟩ := h
          subst hhej
          subst hqp
          exact ⟨[], rest, rfl, by simp [probeCross], hskip, hc, harr, hint⟩
        | none =>
          simp only [hint] at h
          obtain ⟨pre, post, hsplit, hzero, hnsk, s, hts, hint2⟩ := ih h
          refine ⟨he :: pre, post, by rw [hsplit]; rfl, ?_, hnsk, s, hts, hint2⟩
          unfold probeCross at hzero ⊢
          have hsg : segOf st he = some hc := by
            rw [segOf_eq_toArrayE, harr]
            rfl
          simpa [List.filter_cons, hs1, hs2, hsg, hint] using hzero

/-- C7 (amended): the probe of `Face.subdivide` yields no crossing (and
`subdivide` then raises) exactly when zero of the face's other boundary
half-edges are crossed; when it does yield one it is the *first* crossed
edge in boundary-list order with no uniqueness check on the rest; and on
the one-edge face `stC6` the probe crosses zero edges and `subdivide`
raises its degeneracy error (while `C7_counterexample` shows a face with
two crossings on which `subdivide` succeeds). -/
theorem C7_thm :
    (∀ (st : DState) (el : Pt × Pt) (edge newEdge : Nat) (es : List Nat),
      (∀ j, j ∈ es → ¬ (j = edge ∨ j = newEdge) →
        (segOf st j).isSome = true) →
      (probeLoopE st el edge newEdge es = Except.ok none ↔
        probeCross st el edge newEdge es = 0)) ∧
    (∀ (st : DState) (el : Pt × Pt) (edge newEdge : Nat) (es : List Nat)
        (p : Pt) (j : Nat),
      probeLoopE st el edge newEdge es = Except.ok (some (p, j)) →
      ∃ pre post, es = pre ++ j :: post ∧
        probeCross st el edge newEdge pre = 0 ∧
        ¬ (j = edge ∨ j = newEdge) ∧
        ∃ s, toArrayE st j = Except.ok s ∧ segIntersect el s = some p) ∧
    probeCross c6mid (((1/2 : ℚ), (0 : ℚ)), ((1/2 : ℚ), (500 : ℚ))) 0 2
      (((getF c6mid 0).map FRec.edgeList).getD []) = 0 ∧
    (subdivideF 0 0 none 0 100 stC6).1 =
      Except.error "AssertionError: intersection is None" :=
  ⟨probeLoop_none_iff, probeLoop_first, by with_unfolding_all decide,
   by with_unfolding_all decide⟩

/-- C7 witness: the zero-crossing criterion instantiated on the split
one-edge face: the probe loop over `[0, 2]` returns `none` exactly as the
crossing count is zero. -/
theorem C7_thm_witness :
    probeLoopE c6mid (((1/2 : ℚ), (0 : ℚ)), ((1/2 : ℚ), (500 : ℚ))) 0 2
        [0, 2] = Except.ok none ↔
      probeCross c6mid (((1/2 : ℚ), (0 : ℚ)), ((1/2 : ℚ), (500 : ℚ))) 0 2
        [0, 2] = 0 :=
  C7_thm.1 c6mid (((1/2 : ℚ), (0 : ℚ)), ((1/2 : ℚ), (500 : ℚ))) 0 2 [0, 2]
    (by with_unfolding_all decide)

/-- The intersection the straddle branch of `constrain_to_circle`
selects: argmin of the distances from the outside endpoint `b`. -/
def circClosest (a b c : Pt) (r : ℚ) : Pt :=
  (lineCircleIntersect a b c r).getD
    (argminIdx ((lineCircleIntersect a b c r).map (fun q => dist2 b q)))
    ((0 : ℚ), (0 : ℚ))

/-- C8 (amended): for every half-edge straddling a circle - in either
orientation, origin endpoint inside the circle or origin endpoint
outside - `constrain_to_circle` moves the outside endpoint to the
line-circle intersection selected by the argmin of the distances
measured from the *outside* endpoint (the source's
`get_distance_raw(furthest_from_center, intersect_points)`, computed on
the closer-to-further segment), leaves the inside endpoint untouched,
and returns the edge tagged `MODIFIED`.  The first clause is the
source's `further == self.twin.origin` branch (the twin's origin is
moved), the second its `further == self.origin` branch (the edge's own
origin is moved). -/
theorem C8_thm (st : DState) (i t v1 v2 : Nat) (he th : HRec) (w1 w2 : Vtx)
    (centre : Pt) (r : ℚ) (cands : List Ent) (force : Bool)
    (hee : getE st i = some he) (hho : he.origin = some v1)
    (htw : he.twin = some t) (hth : getE st t = some th)
    (hto : th.origin = some v2)
    (hv1 : getV st v1 = some w1) (hv2 : getV st v2 = some w2)
    (hv12 : v1 ≠ v2)
    (hcon : hasConstraintsHE st i cands = false) :
    (inCircleB centre r w1.loc = true → inCircleB centre r w2.loc = false →
      lineCircleIntersect w1.loc w2.loc centre r ≠ [] →
      (constrainToCircle i centre r cands force st).1 =
        Except.ok (i, EditE.MODIFIED) ∧
      getV (constrainToCircle i centre r cands force st).2 v2 =
        some { w2 with loc := circClosest w1.loc w2.loc centre r } ∧
      getV (constrainToCircle i centre r cands force st).2 v1 = some w1) ∧
    (inCircleB centre r w1.loc = false → inCircleB centre r w2.loc = true →
      lineCircleIntersect w2.loc w1.loc centre r ≠ [] →
      (constrainToCircle i centre r cands force st).1 =
        Except.ok (i, EditE.MODIFIED) ∧
      getV (constrainToCircle i centre r cands force st).2 v1 =
        some { w1 with loc := circClosest w2.loc w1.loc centre r } ∧
      getV (constrainToCircle i centre r cands force st).2 v2 = some w2) := by
  have harr : toArrayE st i = Except.ok (w1.loc, w2.loc) := by
    simp only [toArrayE, hee, hho, htw, hth, hto, hv1, hv2]
  have hv21 : v2 ≠ v1 := fun hq => hv12 hq.symm
  constructor
  · intro hin hout hints
    have hlt : dist2 centre w1.loc < dist2 centre w2.loc := by
      unfold inCircleB at hin hout
      simp only [decide_eq_true_eq] at hin
      simp only [decide_eq_false_iff_not] at hout
      exact lt_of_le_of_lt hin (not_le.mp hout)
    have hcf : getCloserAndFurtherE st i centre = Except.ok (v1, v2) := by
      simp only [getCloserAndFurtherE, hee, hho, htw, hth, hto, hv1, hv2,
        if_pos hlt]
    simp [constrainToCircle, withinCircleHE, exMap, harr, hin, hout, estBind,
      getCloserAndFurther, hcf, getVx, unopt, getEd, hee, hv1, hv2, hints,
      hcon, hho, htw, hth, hto, hv12, getV_updV, circClosest]
  · intro hin2 hout2 hints2
    have hlt2 : dist2 centre w2.loc < dist2 centre w1.loc := by
      unfold inCircleB at hin2 hout2
      simp only [decide_eq_true_eq] at hout2
      simp only [decide_eq_false_iff_not] at hin2
      exact lt_of_le_of_lt hout2 (not_le.mp hin2)
    have hnlt : ¬ dist2 centre w1.loc < dist2 centre w2.loc :=
      not_lt.mpr (le_of_lt hlt2)
    have hcf2 : getCloserAndFurtherE st i centre = Except.ok (v2, v1) := by
      simp only [getCloserAndFurtherE, hee, hho, htw, hth, hto, hv1, hv2,
        if_neg hnlt]
    simp [constrainToCircle, withinCircleHE, exMap, harr, hin2, hout2,
      estBind, getCloserAndFurther, hcf2, getVx, unopt, getEd, hee, hv1,
      hv2, hints2, hcon, hho, htw, hth, hto, hv21, getV_updV, circClosest]

/-- C8 witness: both straddle orientations on the concrete circle centred
`(5,0)` with radius 1.  Constraining half-edge 0 (`(5,0) -> (7,0)`,
origin inside) moves the far endpoint to `(6,0)`; constraining its twin,
half-edge 1 (`(7,0) -> (5,0)`, origin outside), moves that same outside
origin to `(6,0)`.  In both runs the inside endpoint stays at `(5,0)`
and the result is tagged `MODIFIED`. -/
theorem C8_thm_witness :
    (constrainToCircle 0 ((5 : ℚ), (0 : ℚ)) 1 [] false stC8).1 =
      Except.ok (0, EditE.MODIFIED) ∧
    getV (constrainToCircle 0 ((5 : ℚ), (0 : ℚ)) 1 [] false stC8).2 1 =
      some ⟨((6 : ℚ), (0 : ℚ)), [1]⟩ ∧
    getV (constrainToCircle 0 ((5 : ℚ), (0 : ℚ)) 1 [] false stC8).2 0 =
      some ⟨((5 : ℚ), (0 : ℚ)), [0]⟩ ∧
    (constrainToCircle 1 ((5 : ℚ), (0 : ℚ)) 1 [] false stC8).1 =
      Except.ok (1, EditE.MODIFIED) ∧
    getV (constrainToCircle 1 ((5 : ℚ), (0 : ℚ)) 1 [] false stC8).2 1 =
      some ⟨((6 : ℚ), (0 : ℚ)), [1]⟩ ∧
    getV (constrainToCircle 1 ((5 : ℚ), (0 : ℚ)) 1 [] false stC8).2 0 =
      some ⟨((5 : ℚ), (0 : ℚ)), [0]⟩ := by
  have h0 := (C8_thm stC8 0 1 0 1
    ⟨some 0, some 1, none, none, none, none, false, false⟩
    ⟨some 1, some 0, none, none, none, none, false, false⟩
    ⟨((5 : ℚ), (0 : ℚ)), [0]⟩ ⟨((7 : ℚ), (0 : ℚ)), [1]⟩
    ((5 : ℚ), (0 : ℚ)) 1 [] false
    (by with_unfolding_all rfl) rfl rfl
    (by with_unfolding_all rfl) rfl
    (by with_unfolding_all rfl) (by with_unfolding_all rfl)
    (by decide) (by with_unfolding_all rfl)).1
    (by with_unfolding_all decide) (by with_unfolding_all decide)
    (by with_unfolding_all decide)
  have h1 := (C8_thm stC8 1 0 1 0
    ⟨some 1, some 0, none, none, none, none, false, false⟩
    ⟨some 0, some 1, none, none, none, none, false, false⟩
    ⟨((7 : ℚ), (0 : ℚ)), [1]⟩ ⟨((5 : ℚ), (0 : ℚ)), [0]⟩
    ((5 : ℚ), (0 : ℚ)) 1 [] false
    (by with_unfolding_all rfl) rfl rfl
    (by with_unfolding_all rfl) rfl
    (by with_unfolding_all rfl) (by with_unfolding_all rfl)
    (by decide) (by with_unfolding_all rfl)).2
    (by with_unfolding_all decide) (by with_unfolding_all decide)
    (by with_unfolding_all decide)
  refine ⟨h0.1, ?_, h0.2.2, h1.1, ?_, h1.2.2⟩
  · rw [h0.2.1]
    with_unfolding_all rfl
  · rw [h1.2.1]
    with_unfolding_all rfl

end CU
